import Mathlib

/-!
# Verification of the NEXTGENMARKETER orchestration core

A shallow embedding, in Lean 4, of the routing / normalization /
synthesis core of the NEXTGENMARKETER repository:

* `src/utils/llm_utils.py` — the structured-completion client
  (`ask_ollama` and its JSON-repair ladder);
* `src/agents/sentiment_agent.py`, `src/agents/purchase_agent.py`,
  `src/agents/campaign_agent.py` — the specialist agents' reply
  normalization;
* `src/agents/marketer_agent.py` — the synthesis ("Marketer") agent;
* `src/orchestrator.py` — the router and the workflow engine.

Python dynamic values are embedded as the inductive type `Json`
below.  The external language-model service is embedded as explicit
parameters: each agent's reply (already passed through `ask_ollama`)
is a `Json` argument, and the Python `json.loads` library routine is
an abstract `String → Option Json` parameter wherever it is applied
to model output.  Python code that can raise (attribute errors on
non-dict values, `TypeError` on bad slicing, and so on) is embedded
in `Except String`; code that cannot raise is embedded as total
functions.  Machine floats are embedded as `ℚ` (the repository only
compares, clamps, and rounds confidences; no float-specific behavior
is relied upon).
-/

namespace NextGenMarketer

/-- Embedding of a dynamic Python value (the values flowing between the
agents: parsed JSON plus whatever the model's reply decodes to).
`null` is Python `None`. -/
inductive Json where
  | null : Json
  | bool : Bool → Json
  | num : ℚ → Json
  | str : String → Json
  | arr : List Json → Json
  | obj : List (String × Json) → Json

namespace Json

/-- Python dictionary lookup: `d.get(k)`-style access returning the first
binding of `k` (insertion order, as in CPython dicts). `none` on
non-dict values or missing keys. -/
def get? : Json → String → Option Json
  | .obj kvs, k => (kvs.find? (fun kv => kv.1 == k)).map (fun kv => kv.2)
  | _, _ => none

/-- Python `d.get(k, default)`. -/
def getD (j : Json) (k : String) (d : Json) : Json := (j.get? k).getD d

/-- `isinstance(x, dict)`. -/
def isObj : Json → Bool
  | .obj _ => true
  | _ => false

/-- `isinstance(x, list)`. -/
def isArr : Json → Bool
  | .arr _ => true
  | _ => false

/-- `isinstance(x, str)`. -/
def isStr : Json → Bool
  | .str _ => true
  | _ => false

/-- Key update on an association list: replace the value of an existing
key in place, else append — CPython dict assignment semantics. -/
def setKVs : List (String × Json) → String → Json → List (String × Json)
  | [], k, v => [(k, v)]
  | (k', v') :: rest, k, v =>
    if k' == k then (k', v) :: rest else (k', v') :: setKVs rest k v

/-- Python `d[k] = v` on a dict.  All uses in the embedded code are
guarded by `isinstance(..., dict)` checks, so the non-dict branch
(which would raise `TypeError` in Python) is never reached; it is
mapped to the identity. -/
def objSet : Json → String → Json → Json
  | .obj kvs, k, v => .obj (setKVs kvs k v)
  | j, _, _ => j

/-- Python truthiness of the embedded values. -/
def pyTruthy : Json → Bool
  | .null => false
  | .bool b => b
  | .num q => q != 0
  | .str s => !s.isEmpty
  | .arr xs => !xs.isEmpty
  | .obj kvs => !kvs.isEmpty

end Json

/-- Python `s.lower()` (`String.toLower`, re-stated over character
lists so that proofs can evaluate it). -/
def pyLower (s : String) : String := String.mk (s.toList.map Char.toLower)

/-- Python `s.strip()` (`String.trim`, re-stated over character
lists). -/
def pyStripWs (s : String) : String :=
  String.mk (((s.toList.dropWhile Char.isWhitespace).reverse.dropWhile
    Char.isWhitespace).reverse)

/-- `t` is a prefix of `s` (`String.startsWith`, re-stated over
character lists). -/
def startsWithL (s t : String) : Bool := t.toList.isPrefixOf s.toList

/-- Split a character list at a separator character (the `s.split(sep)`
fragment `parseDecimal?` needs; always non-empty, like Python's
`str.split`). -/
def splitListOn (sep : Char) : List Char → List (List Char)
  | [] => [[]]
  | x :: xs =>
    if x = sep then [] :: splitListOn sep xs
    else
      match splitListOn sep xs with
      | h :: t => (x :: h) :: t
      | [] => [[x]]

/-- Python `a or b` (on embedded values): `b` when `a` is falsy. -/
def pyOr (a b : Json) : Json := if a.pyTruthy then a else b

/-- Python `a or b` on strings. -/
def strOr (a b : String) : String := if a.isEmpty then b else a

/-- Python `a or b` on lists. -/
def listOr {α : Type} (a b : List α) : List α := if a.isEmpty then b else a

mutual

/-- Python `repr` of an embedded value (as used inside `str` of a list
or dict).  String escaping inside `repr` and the exact decimal
rendering of floats are simplified (`ℚ`'s `toString`); no theorem
below depends on the rendered text, only on how the code routes it. -/
def pyRepr : Json → String
  | .null => "None"
  | .bool true => "True"
  | .bool false => "False"
  | .num q => toString q
  | .str s => "'" ++ s ++ "'"
  | .arr xs => "[" ++ ", ".intercalate (pyReprList xs) ++ "]"
  | .obj kvs => "\x7b" ++ ", ".intercalate (pyReprObj kvs) ++ "\x7d"

/-- `repr` of the elements of a list value. -/
def pyReprList : List Json → List String
  | [] => []
  | x :: xs => pyRepr x :: pyReprList xs

/-- `repr` of the entries of a dict value. -/
def pyReprObj : List (String × Json) → List String
  | [] => []
  | (k, v) :: kvs => ("'" ++ k ++ "': " ++ pyRepr v) :: pyReprObj kvs

end

/-- Python `str(x)`: the string itself for strings, `repr`-style text
otherwise. -/
def pyStr : Json → String
  | .str s => s
  | j => pyRepr j

/-- Numeric value of a digit string (used by the decimal parser). -/
def digitsToNat (s : String) : Nat :=
  s.toList.foldl (fun acc c => acc * 10 + (c.toNat - '0'.toNat)) 0

/-- Embedding of Python `float(s)` on a string: optional sign, digit
string with an optional single decimal point, surrounding whitespace
ignored; `none` when Python would raise `ValueError`.  (Exponent,
`inf` and `nan` forms are omitted; no claim exercises them.) -/
def parseDecimal? (s : String) : Option ℚ :=
  let t := pyStripWs s
  let (sgn, u) : ℚ × String :=
    if startsWithL t "-" then (-1, t.drop 1)
    else if startsWithL t "+" then (1, t.drop 1)
    else (1, t)
  match splitListOn '.' u.toList with
  | [a] =>
    if !a.isEmpty && a.all Char.isDigit then
      some (sgn * (digitsToNat (String.mk a) : ℚ))
    else none
  | [a, b] =>
    if (!a.isEmpty || !b.isEmpty) && a.all Char.isDigit && b.all Char.isDigit then
      some (sgn * ((digitsToNat (String.mk a) : ℚ)
        + (digitsToNat (String.mk b) : ℚ) / (10 ^ b.length : ℚ)))
    else none
  | _ => none

/-- Embedding of Python `float(x)` on a dynamic value: `none` models the
`TypeError`/`ValueError` that the agents catch. -/
def pyFloat? : Json → Option ℚ
  | .num q => some q
  | .bool b => some (if b then 1 else 0)
  | .str s => parseDecimal? s
  | _ => none

/-- The agents' guarded confidence conversion:
`try: c = float(v); c = max(0.0, min(1.0, c)) except: c = 0.0`. -/
def clampConf (v : Json) : ℚ :=
  match pyFloat? v with
  | some c => max 0 (min 1 c)
  | none => 0

/-- Python `round(x, 2)`.  Embedded as round-half-up on rationals
(CPython rounds binary floats to even; the difference only shows at
exact half-cent values, which no theorem below depends on). -/
def round2 (q : ℚ) : ℚ := (⌊q * 100 + 1 / 2⌋ : ℚ) / 100

/-- Python `s[:n]` on a string (`String.take`, re-stated over character
lists). -/
def strTake (s : String) (n : Nat) : String := String.mk (s.toList.take n)

/-- Python `s.split("\n")[0]` — the first line of a string. -/
def firstLine (s : String) : String :=
  String.mk (s.toList.takeWhile (fun c => c ≠ '\n'))

/-- `needle` occurs as a contiguous sublist of `hay`. -/
def listInfixB (needle : List Char) : List Char → Bool
  | [] => needle.isEmpty
  | c :: t => needle.isPrefixOf (c :: t) || listInfixB needle t

/-- Python `needle in hay` on strings. -/
def strContainsB (hay needle : String) : Bool :=
  listInfixB needle.toList hay.toList

/-- Substring assertion at the `Prop` level: `needle` occurs in `hay`. -/
def Mentions (hay needle : String) : Prop :=
  ∃ a b : String, hay = a ++ needle ++ b

/-- Python `s.capitalize()`. -/
def pyCapitalize (s : String) : String :=
  match s.toList with
  | [] => ""
  | c :: cs => String.mk (c.toUpper :: cs.map Char.toLower)

/-! ## `src/utils/llm_utils.py` — the structured-completion client -/

/-- `_extract_largest_brace_group`: the substring from the first `'{'`
to the last `'}'`, `None` when absent or ill-ordered (`end <= start`). -/
def extractLargestBraceGroup (s : String) : Option String :=
  let cs := s.toList
  match cs.findIdx? (fun c => c = '{'), cs.reverse.findIdx? (fun c => c = '}') with
  | some i, some jr =>
    let j := cs.length - 1 - jr
    if i < j then some (String.mk ((cs.drop i).take (j - i + 1))) else none
  | _, _ => none

/-- `_close_braces_heuristic`: append one `'}'` per unmatched `'{'`. -/
def closeBracesHeuristic (s : String) : String :=
  let opens := s.toList.count '{'
  let closes := s.toList.count '}'
  if opens > closes then
    s ++ String.mk (List.replicate (opens - closes) '}')
  else s

/-- The typed failure value `ask_ollama` returns when every JSON parse
attempt fails: `{"error": "Invalid JSON", "raw": content}`. -/
def invalidJsonFailure (content : String) : Json :=
  .obj [("error", .str "Invalid JSON"), ("raw", .str content)]

/-- The value `ask_ollama` returns when the primary `ollama.chat` call
raises: `{"error": "ollama_error", "exception": str(e)}`. -/
def ollamaErrorValue (e : String) : Json :=
  .obj [("error", .str "ollama_error"), ("exception", .str e)]

/-- The repair loop of `ask_ollama` (steps 3–5 of the ladder), given:
`parse` — the embedded `json.loads` (`none` both on a parse error and
on a parsed JSON `null`, which `_safe_json_load`'s callers treat
alike); `content` — the primary reply text; `cand` — the current
value of the mutable `candidate` variable; the list of repair-call
results (`.error` embeds an `ollama.chat` exception, which `break`s
the loop).  After the loop: close braces on the original content,
then on the last candidate, then give up with the typed failure. -/
def repairLoop (parse : String → Option Json) (content : String) :
    Option String → List (Except String String) → Json
  | cand, [] =>
    match parse (closeBracesHeuristic content) with
    | some j => j
    | none =>
      match cand.bind (fun c => parse (closeBracesHeuristic c)) with
      | some j => j
      | none => invalidJsonFailure content
  | cand, .error _ :: _ =>
    -- the repair `ollama.chat` raised: log and `break` out of the loop
    match parse (closeBracesHeuristic content) with
    | some j => j
    | none =>
      match cand.bind (fun c => parse (closeBracesHeuristic c)) with
      | some j => j
      | none => invalidJsonFailure content
  | cand, .ok r :: rest =>
    match parse r with
    | some j => j
    | none =>
      let c := extractLargestBraceGroup r
      match c.bind parse with
      | some j => j
      | none =>
        let _ := cand
        repairLoop parse content c rest

/-- `ask_ollama`.  `chat` embeds the primary `ollama.chat` call
(`.error` = the call raised, and is caught); `repairs` embeds the
repair calls consumed by the loop (`repair_attempts` of them).  The
`Except` in the result records whether an exception escapes to the
caller — the function never produces `.error`, which is exactly what
claims C2/C4 are about. -/
def askOllama (chat : Except String String) (parse : String → Option Json)
    (jsonMode : Bool) (repairs : List (Except String String)) :
    Except String Json :=
  match chat with
  | .error e => .ok (ollamaErrorValue e)
  | .ok content =>
    if !jsonMode then .ok (.str content)
    else
      match parse content with
      | some j => .ok j
      | none =>
        match (extractLargestBraceGroup content).bind parse with
        | some j => .ok j
        | none =>
          .ok (repairLoop parse content (extractLargestBraceGroup content) repairs)

/-- The texts `ask_ollama` hands to `json.loads` inside the repair loop
and the two closing-brace steps, in order, on a run where every parse
fails (`cand` is the running value of the `candidate` variable). -/
def repairTrace (content : String) :
    Option String → List (Except String String) → List String
  | cand, [] =>
    closeBracesHeuristic content :: (cand.map closeBracesHeuristic).toList
  | cand, .error _ :: _ =>
    closeBracesHeuristic content :: (cand.map closeBracesHeuristic).toList
  | _, .ok r :: rest =>
    r :: (extractLargestBraceGroup r).toList
      ++ repairTrace content (extractLargestBraceGroup r) rest

/-- Every text `ask_ollama` hands to `json.loads` on a run where every
parse fails: the raw content, its brace-group extraction, the repair
ladder texts, and the two closing-brace heuristics. -/
def askTrace (content : String) (repairs : List (Except String String)) :
    List String :=
  content :: (extractLargestBraceGroup content).toList
    ++ repairTrace content (extractLargestBraceGroup content) repairs

/-! ## Specialist agents — reply normalization

Each `analyze_*` method retrieves evidence, builds a prompt, and calls
`ask_ollama(..., json_mode=True)`; the retrieval text and the prompt
only flow into the external completion service, whose (already
JSON-coerced) reply is the `resp : Json` parameter of the functions
below.  The normalization of that reply — the part the claims are
about — is embedded in full. -/

/-- One normalized insight, from the loop shared verbatim by
`SentimentAgent.analyze_sentiment` and
`CampaignAgent.analyze_campaigns` (the two files duplicate this code
textually): string-coerce and strip the four text fields, join a
list-valued region, clamp the confidence, and default empty strings
to sentinels. -/
def mkInsight (it : Json) : Json :=
  let audience := pyStripWs (pyStr (it.getD "audience_segment" (.str "")))
  let product := pyStripWs (pyStr (it.getD "product_focus" (.str "")))
  let region0 := it.getD "region" (.str "")
  let region1 := match region0 with
    | .arr xs => Json.str (", ".intercalate (xs.map pyStr))
    | v => v
  let region := pyStripWs (pyStr region1)
  let signal := pyStripWs (pyStr (it.getD "signal" (.str "")))
  let confidence := clampConf (it.getD "confidence" (.num 0))
  .obj [("audience_segment", .str (strOr audience "General")),
        ("product_focus", .str (strOr product "")),
        ("region", .str (strOr region "All")),
        ("signal", .str (strOr signal "")),
        ("confidence", .num confidence)]

/-- Up to 3 normalized insights from the reply's `insights` list,
skipping non-dict items (also shared verbatim by the sentiment and
campaign agents). -/
def parsedInsights (resp : Json) : List Json :=
  match resp.get? "insights" with
  | some (.arr xs) =>
    (xs.take 3).filterMap (fun it => if it.isObj then some (mkInsight it) else none)
  | _ => []

/-- One normalized recommendation (sentiment/campaign agents): bare
strings are salvaged with confidence 0; dict items take the first of
`idea`/`title`/`text`, clamp the confidence, and are dropped when the
idea is empty. -/
def mkRec (rec : Json) : Option Json :=
  match rec with
  | .obj kvs =>
    let r := Json.obj kvs
    let idea := (pyStr (pyOr (r.getD "idea" .null)
      (pyOr (r.getD "title" .null) (pyOr (r.getD "text" .null) (.str "")))))
    let conf := clampConf (r.getD "confidence" (.num 0))
    if idea.isEmpty then none
    else some (.obj [("idea", .str idea), ("confidence", .num conf)])
  | .str s =>
    if (pyStripWs s).isEmpty then none
    else some (.obj [("idea", .str (pyStripWs s)), ("confidence", .num 0)])
  | _ => none

/-- Up to 3 normalized recommendations from the reply's
`recommendations` list. -/
def parsedRecs (resp : Json) : List Json :=
  match resp.get? "recommendations" with
  | some (.arr xs) => (xs.take 3).filterMap mkRec
  | _ => []

/-- The single low-confidence insight wrapped around a non-dict reply
(sentiment/campaign agents): signal = first line of the truncated raw
text, capped at 300 characters. -/
def rawTextInsight (summary : String) : Json :=
  .obj [("audience_segment", .str "General"), ("product_focus", .str ""),
        ("region", .str "All"), ("signal", .str (strTake (firstLine summary) 300)),
        ("confidence", .num 0)]

/-- `SentimentAgent`'s heuristic fallback recommendation derived from a
normalized insight (insights reaching this point are built by
`mkInsight`/`rawTextInsight`, so their fields are strings and their
confidence is numeric; the unguarded `float(...)` there cannot
raise). -/
def sentFallbackRec (it : Json) : Json :=
  let pf := pyOr (it.getD "product_focus" .null) (.str "product")
  let aud := pyOr (it.getD "audience_segment" .null) (.str "target audience")
  let conf := (pyFloat? (it.getD "confidence" (.num 0))).getD 0
  if strContainsB (pyLower (pyStr (it.getD "signal" (.str "")))) "emi" then
    .obj [("idea", .str ("Promote EMI offers to " ++ pyStr aud ++ " for " ++ pyStr pf)),
          ("confidence", .num (round2 (min 1 (conf + 1 / 10))))]
  else
    .obj [("idea", .str ("Target " ++ pyStr aud ++ " with a short campaign focused on "
            ++ pyStr pf ++ " benefits")),
          ("confidence", .num (round2 conf))]

/-- `SentimentAgent.analyze_sentiment`, normalization of the completion
reply `resp`. -/
def analyzeSentiment (resp : Json) : Json :=
  let parts : String × Json × List Json × List Json :=
    if resp.isObj then
      (strTake (pyStr (pyOr (resp.getD "summary" (.str ""))
          (resp.getD "executive_summary" (.str "")))) 1000,
       (let km0 := resp.getD "key_metrics" (.obj [])
        if km0.isObj then km0 else .obj []),
       parsedInsights resp,
       parsedRecs resp)
    else
      let rawText := pyStr resp
      let summary := strTake rawText 1000
      (summary, .obj [], [rawTextInsight summary],
       [Json.obj [("idea", .str "No structured recommendation parsed from model output"),
                  ("confidence", .num 0)]])
  match parts with
  | (summary, km, insights, recs0) =>
    let recs := if recs0.isEmpty then (insights.take 2).map sentFallbackRec else recs0
    .obj [("summary", .str summary), ("key_metrics", km),
          ("insights", .arr insights), ("recommendations", .arr recs)]

/-- `CampaignAgent`'s heuristic fallback recommendation (`conf or 0.6`
replaces a zero confidence with 0.6 before rounding). -/
def campFallbackRec (it : Json) : Json :=
  let pf := pyOr (it.getD "product_focus" .null) (.str "product")
  let aud := pyOr (it.getD "audience_segment" .null) (.str "customers")
  let conf := (pyFloat? (it.getD "confidence" (.num 0))).getD 0
  let conf' : ℚ := if conf = 0 then 6 / 10 else conf
  .obj [("idea", .str ("Run tailored ads for " ++ pyStr aud ++ " focusing on "
          ++ pyStr pf ++ " benefits")),
        ("confidence", .num (round2 conf'))]

/-- `CampaignAgent.analyze_campaigns`, normalization of the completion
reply `resp`. -/
def analyzeCampaigns (resp : Json) : Json :=
  let parts : String × Json × List Json × List Json :=
    if resp.isObj then
      (strTake (pyStr (pyOr (resp.getD "summary" .null)
          (pyOr (resp.getD "executive_summary" .null) (.str "")))) 1000,
       pyOr (resp.getD "key_metrics" (.obj [])) (.obj []),
       parsedInsights resp,
       parsedRecs resp)
    else
      let rawText := pyStr resp
      (strTake rawText 1000, .obj [], [rawTextInsight (strTake rawText 1000)], [])
  match parts with
  | (summary, km, insights, recs0) =>
    let recs := if recs0.isEmpty && !insights.isEmpty
      then (insights.take 2).map campFallbackRec else recs0
    .obj [("summary", .str (strOr summary "No summary available")), ("key_metrics", km),
          ("insights", .arr insights), ("recommendations", .arr recs)]

/-- The recommendation `PurchaseAgent` templates from a raw
(unnormalized) insight dict: the model-provided confidence is copied
through unclamped. -/
def purchRecObj (ins : Json) : Json :=
  .obj [("idea", .str ("Target " ++ pyStr (ins.getD "audience_segment" (.str "customers"))
        ++ " with a campaign highlighting " ++ pyStr (ins.getD "product_focus" (.str "products")))),
        ("confidence", ins.getD "confidence" (.num (6 / 10)))]

/-- `PurchaseAgent`'s fallback derivation on one insight item: a
non-dict item raises `AttributeError`. -/
def purchDeriveRec (ins : Json) : Except String Json :=
  if ins.isObj then .ok (purchRecObj ins)
  else .error "AttributeError: insight item has no attribute get"

/-- `PurchaseAgent.analyze_purchases`, normalization of the completion
reply `resp`: a plain pass-through of the reply's fields (no clamping,
no per-item coercion), plus the fallback recommendation derivation.
A truthy non-list `insights` value makes the fallback's slicing or
attribute access raise, hence the `Except`. -/
def analyzePurchases (resp : Json) : Except String Json :=
  if !resp.isObj then
    .ok (.obj [("summary", .str (pyStr resp)), ("key_metrics", .obj []),
               ("insights", .arr []), ("recommendations", .arr [])])
  else
    let summary := resp.getD "summary" (.str "No summary available")
    let km := resp.getD "key_metrics" (.obj [])
    let ins := resp.getD "insights" (.arr [])
    let recs := resp.getD "recommendations" (.arr [])
    if !recs.pyTruthy && ins.pyTruthy then
      match ins with
      | .arr xs => do
        let newRecs ← (xs.take 2).mapM purchDeriveRec
        .ok (.obj [("summary", summary), ("key_metrics", km),
                   ("insights", ins), ("recommendations", .arr newRecs)])
      | _ => .error "TypeError: insights value is not sliceable into dicts"
    else
      .ok (.obj [("summary", summary), ("key_metrics", km),
                 ("insights", ins), ("recommendations", recs)])

/-- `SentimentAgent.retrieve_sentiment_data`: `hasCollection` embeds
`self.collection` being available, `queryResult` the Chroma query
(`.error` = the retrieval call raised, which is caught and mapped to a
sentinel string). -/
def retrieveSentimentData (hasCollection : Bool)
    (queryResult : Except String (List Json)) : String :=
  if !hasCollection then "(no sentiment docs available)"
  else
    match queryResult with
    | .error _ => "(error retrieving sentiment docs)"
    | .ok docs => "\n\n".intercalate (docs.filterMap (fun d =>
        match d with | .str s => some s | _ => none))

/-! ## `src/agents/marketer_agent.py` — the synthesis agent -/

/-- `MarketerAgent._ensure_list_of_str`. -/
def ensureListOfStr : Json → List String
  | .null => []
  | .arr xs => xs.map pyStr
  | v => [pyStr v]

/-- `maybe_kf.get(k) if isinstance(maybe_kf, dict) else None`. -/
def kfLookup (maybeKf : Json) (k : String) : Json :=
  if maybeKf.isObj then maybeKf.getD k .null else .null

/-- One entry of the normalized key findings
(`MarketerAgent._normalize_key_findings` loop body): a truthy value is
coerced to a list of strings (lists element-wise, dicts flattened to
`"k: v"` lines, anything else wrapped); a falsy value becomes the
ran/not-run sentinel depending on `k.capitalize() in sources`. -/
def kfEntry (maybeKf : Json) (sources : List String) (k : String) : List String :=
  let val := kfLookup maybeKf k
  if val.pyTruthy then
    match val with
    | .arr xs => xs.map pyStr
    | .obj kvs => kvs.map (fun kv => kv.1 ++ ": " ++ pyStr kv.2)
    | v => [pyStr v]
  else
    if sources.contains (pyCapitalize k) then ["No key findings produced by agent"]
    else ["No data available (agent not run)"]

/-- `MarketerAgent._normalize_key_findings`: a fresh dict with exactly
the keys `sentiment`, `purchase`, `campaign`. -/
def normalizeKeyFindings (maybeKf : Json) (sources : List String) : Json :=
  .obj [("sentiment", .arr ((kfEntry maybeKf sources "sentiment").map Json.str)),
        ("purchase", .arr ((kfEntry maybeKf sources "purchase").map Json.str)),
        ("campaign", .arr ((kfEntry maybeKf sources "campaign").map Json.str))]

/-- One block of `pick_product`: first truthy of three keys; a non-empty
list is joined, any other truthy value is `str`-ed, else no pick. -/
def pickCand (r : Json) (k1 k2 k3 : String) : Option String :=
  let p := pyOr (r.getD k1 .null) (pyOr (r.getD k2 .null) (r.getD k3 .null))
  match p with
  | .arr (x :: xs) => some (", ".intercalate ((x :: xs).map pyStr))
  | v => if v.pyTruthy then some (pyStr v) else none

/-- `pick_product` inside `_ensure_final_campaign_shape`: purchase refs,
then sentiment refs, then campaign refs, else `""`. -/
def pickProduct (campaignRef purchaseRef sentimentRef : Json) : String :=
  match (if purchaseRef.pyTruthy then
      pickCand purchaseRef "product_focus" "product" "top_products" else none) with
  | some s => s
  | none =>
    match (if sentimentRef.pyTruthy then
        pickCand sentimentRef "most_mentioned_models" "most_mentioned" "top_models" else none) with
    | some s => s
    | none =>
      match (if campaignRef.pyTruthy then
          pickCand campaignRef "product" "products" "top_products" else none) with
      | some s => s
      | none => ""

/-- `MarketerAgent._ensure_final_campaign_shape` (its `sources_present`
parameter is unused in the Python body and omitted here): the fixed
nine-key campaign dict with per-field `or`-defaults, cleaned non-empty
channel strings, and string-coerced KPIs. -/
def ensureFinalCampaignShape (raw : Json)
    (campaignRef purchaseRef sentimentRef : Json) : Json :=
  let fc0 := raw.getD "final_campaign" .null
  let fc := if fc0.isObj then fc0 else Json.obj []
  let channels0 := listOr (ensureListOfStr (fc.getD "channels" .null)) ["Email", "Push", "SMS"]
  let kpis := listOr (ensureListOfStr (fc.getD "kpis" .null)) ["CTR", "Conversion Rate"]
  let cleanedChannels :=
    listOr ((channels0.map pyStripWs).filter (fun s => !s.isEmpty)) ["Email", "Push", "SMS"]
  .obj [("campaign_name", pyOr (fc.getD "campaign_name" .null)
          (pyOr (fc.getD "name" .null) (.str "New Campaign Idea"))),
        ("product", pyOr (fc.getD "product" .null)
          (pyOr (.str (pickProduct campaignRef purchaseRef sentimentRef)) (.str "Generic Product"))),
        ("region", pyOr (fc.getD "region" .null)
          (pyOr (fc.getD "geo" .null) (.str "National"))),
        ("audience_segment", pyOr (fc.getD "audience_segment" .null)
          (pyOr (fc.getD "segment" .null) (.str "General Audience"))),
        ("concept", pyOr (fc.getD "concept" .null)
          (pyOr (fc.getD "idea" .null)
            (.str "Short concise campaign concept generated from agent outputs"))),
        ("channels", .arr (cleanedChannels.map Json.str)),
        ("content_brief", pyOr (fc.getD "content_brief" .null)
          (pyOr (fc.getD "brief" .null)
            (.str "Short content brief describing main messaging and CTAs."))),
        ("kpis", .arr (kpis.map Json.str)),
        ("rationale", pyOr (fc.getD "rationale" .null)
          (pyOr (fc.getD "why" .null)
            (.str "Derived from provided specialist agent outputs.")))]

/-- `extract_summary` inside `combine_insights`. -/
def extractSummary (out : Json) : Json :=
  if out.isObj then out.getD "summary" (.str "")
  else if out.pyTruthy then .str (pyStr out) else .str ""

/-- Python `x.strip()` on a dynamic value (`AttributeError` on
non-strings). -/
def pyStrip : Json → Except String String
  | .str s => .ok (pyStripWs s)
  | _ => .error "AttributeError: no attribute strip"

/-- Python `sep.join(xs)` on dynamic values (`TypeError` on non-string
items). -/
def pyJoin (sep : String) (xs : List Json) : Except String String := do
  let strs ← xs.mapM (fun j => match j with
    | Json.str s => Except.ok s
    | _ => Except.error "TypeError: join argument is not a str")
  .ok (sep.intercalate strs)

/-- Python `x[:n]` on a dynamic value (`TypeError` on values that are
neither strings nor lists). -/
def pySliceTake : Json → Nat → Except String Json
  | .str s, n => .ok (.str (strTake s n))
  | .arr xs, n => .ok (.arr (xs.take n))
  | _, _ => .error "TypeError: value is not sliceable"

/-- The executive-summary repair in `combine_insights`: keep a truthy
model-provided summary (stripped — raising on a truthy non-string),
else join the truthy specialist summaries (sentiment, purchase,
campaign, in that order) capped at 800 characters, else a sentinel. -/
def computeExecSummary (result : Json)
    (sentSummary purchSummary campSummary : Json) : Except String String := do
  let es0 := pyOr (result.getD "executive_summary" .null) (.str "")
  if es0.pyTruthy then
    pyStrip es0
  else
    let pieces := [sentSummary, purchSummary, campSummary].filter Json.pyTruthy
    if pieces.isEmpty then
      .ok (pyStripWs "No executive summary available.")
    else do
      let j ← pyJoin " " pieces
      .ok (pyStripWs (strTake j 800))

/-- `result[k] = default if k not in result` — the final safety loop of
`combine_insights` (its `final_campaign` default is the empty string,
as in the source). -/
def setIfAbsent (r : Json) (k : String) (v : Json) : Json :=
  if (r.get? k).isSome then r else r.objSet k v

/-- The final safety loop of `combine_insights` over the four required
keys. -/
def ensureFinalKeys (r : Json) : Json :=
  let r1 := setIfAbsent r "executive_summary" (.str "")
  let r2 := setIfAbsent r1 "key_findings" (.obj [])
  let r3 := setIfAbsent r2 "final_campaign" (.str "")
  setIfAbsent r3 "source_agents" (.arr [])

/-- The `source_agents` list `combine_insights` accumulates: Campaign,
Purchase, Sentiment — in that order — for the truthy outputs. -/
def sourcesOf (campaignOut purchaseOut sentimentOut : Json) : List String :=
  (if campaignOut.pyTruthy then ["Campaign"] else [])
    ++ (if purchaseOut.pyTruthy then ["Purchase"] else [])
    ++ (if sentimentOut.pyTruthy then ["Sentiment"] else [])

/-- The reply-to-`result` stage of `combine_insights`: a dict reply is
used as is; otherwise `json.loads(str(resp))` is retried (`reparse`),
and on failure a structured fallback is synthesized from the first
truthy specialist summary (whose slicing raises on non-sliceable
summary values). -/
def resolveResult (reparse : String → Option Json) (resp : Json)
    (campSummary purchSummary sentSummary : Json) (sources : List String) :
    Except String Json :=
  if resp.isObj then pure resp
  else
    match reparse (pyStr resp) with
    | some j => pure j
    | none => do
      let e ← pySliceTake (pyOr campSummary (pyOr purchSummary (pyOr sentSummary
          (.str "No substantive agent outputs available.")))) 500
      pure (Json.obj [("executive_summary", e), ("key_findings", .obj []),
        ("final_campaign", .obj []), ("source_agents", .arr (sources.map Json.str))])

/-- The deterministic repair block at the end of `combine_insights`
(lines 241-273 of marketer_agent.py): normalize key findings, repair
the executive summary, default `source_agents`, rebuild
`final_campaign`, and run the final key-safety loop.  Raises
(`AttributeError`) when `result` is not a dict. -/
def finalizeDecision (result : Json) (sources : List String)
    (sentSummary purchSummary campSummary : Json)
    (campaignRef purchaseRef sentimentRef : Json) : Except String Json :=
  if !result.isObj then
    -- `result.get("key_findings", {})` on a non-dict reparse value raises
    throw "AttributeError: result has no attribute get"
  else do
    let r1 := result.objSet "key_findings"
      (normalizeKeyFindings (result.getD "key_findings" (.obj [])) sources)
    let es ← computeExecSummary r1 sentSummary purchSummary campSummary
    let r2 := r1.objSet "executive_summary" (.str es)
    let r3 := if (match r2.get? "source_agents" with | some (.arr _) => true | _ => false)
      then r2 else r2.objSet "source_agents" (.arr (sources.map Json.str))
    let r4 := r3.objSet "final_campaign"
      (ensureFinalCampaignShape r3 campaignRef purchaseRef sentimentRef)
    pure (ensureFinalKeys r4)

/-- `MarketerAgent.combine_insights`, with the same conventions as the
specialist agents: `resp` is the `ask_ollama` reply and `reparse`
embeds the `json.loads(str(resp))` retry on non-dict replies.
`Except` carries the `AttributeError`/`TypeError` raised when a
reparsed reply is not a dict or a summary value is not
sliceable/strippable. -/
def combineInsights (reparse : String → Option Json)
    (campaignOut purchaseOut sentimentOut : Json) (resp : Json) :
    Except String Json := do
  let campSummary := extractSummary campaignOut
  let purchSummary := extractSummary purchaseOut
  let sentSummary := extractSummary sentimentOut
  let sources := sourcesOf campaignOut purchaseOut sentimentOut
  let result ← resolveResult reparse resp campSummary purchSummary sentSummary sources
  finalizeDecision result sources sentSummary purchSummary campSummary
    (pyOr campaignOut (.obj [])) (pyOr purchaseOut (.obj [])) (pyOr sentimentOut (.obj []))

/-! ## `src/orchestrator.py` — router, nodes, workflow engine -/

/-- The router's tightened sentiment keyword list. -/
def sentimentKeywords : List String :=
  ["sentiment", "feel", "feeling", "emotion", "mood",
   "perception", "satisfaction", "buzz", "review", "reviews"]

/-- The router's tightened purchase keyword list. -/
def purchaseKeywords : List String :=
  ["purchase", "buy", "buying", "sales", "transaction", "revenue",
   "order", "orders", "acquisition", "spend", "sold", "salesdata", "sales data"]

/-- The router's tightened campaign keyword list. -/
def campaignKeywords : List String :=
  ["campaign", "advertise", "advertisement", "ad", "ads", "marketing",
   "ctr", "click", "impression", "reach", "promotion", "performance", "creative"]

/-- The router's overall-strategy keyword list. -/
def overallKeywords : List String :=
  ["strategy", "overall", "comprehensive", "complete", "recommendation",
   "best approach", "marketing strategy", "summary", "plan", "strategic"]

/-- A character matched by the regex class `[a-z\s\-]` (Python `\s` also
matches `\f`/`\v`, which `Char.isWhitespace` omits; no routed prompt
contains those). -/
def basedOnClassChar (c : Char) : Bool :=
  ('a' ≤ c && c ≤ 'z') || c.isWhitespace || c = '-'

/-- Embedding of `re.search(r"based on (the )?([a-z\s\-]+)", p)`: scan
for the leftmost occurrence of `"based on "` whose continuation yields
a non-empty capture for group 2 (with the greedy, backtrackable
optional `"the "`), and return that capture. -/
def basedOnScan : List Char → Option String
  | [] => none
  | c :: cs =>
    if "based on ".toList.isPrefixOf (c :: cs) then
      let rest := (c :: cs).drop 9
      let g :=
        if "the ".toList.isPrefixOf rest then
          let g1 := (rest.drop 4).takeWhile basedOnClassChar
          if g1.isEmpty then rest.takeWhile basedOnClassChar else g1
        else rest.takeWhile basedOnClassChar
      if g.isEmpty then basedOnScan cs else some (String.mk g)
    else basedOnScan cs

/-- `router_node`, as a pure function of the user prompt (the printed
trace is elided): the explicit `based on <X>` rule, then the
overall-strategy keyword rule, then the per-specialist keyword scan,
then the default-to-all fallback, with Marketer appended. -/
def routerRoute (userPrompt : String) : List String :=
  let p := pyLower userPrompt
  let explicitAgent : Option String :=
    match basedOnScan p.toList with
    | none => none
    | some g =>
      let target := pyStripWs g
      if ["sentiment", "feeling", "review", "satisfaction", "buzz"].any
          (fun tok => strContainsB target tok) then some "Sentiment"
      else if ["purchase", "buy", "sales", "transaction", "order", "acquisition"].any
          (fun tok => strContainsB target tok) then some "Purchase"
      else if ["campaign", "ad", "advert", "ctr", "click", "impression", "promotion"].any
          (fun tok => strContainsB target tok) then some "Campaign"
      else none
  match explicitAgent with
  | some a => [a, "Marketer"]
  | none =>
    let chosen :=
      if overallKeywords.any (fun w => strContainsB p w) then
        ["Sentiment", "Purchase", "Campaign"]
      else
        (if sentimentKeywords.any (fun w => strContainsB p w) then ["Sentiment"] else [])
          ++ (if purchaseKeywords.any (fun w => strContainsB p w) then ["Purchase"] else [])
          ++ (if campaignKeywords.any (fun w => strContainsB p w) then ["Campaign"] else [])
    let chosen := if chosen.isEmpty then ["Sentiment", "Purchase", "Campaign"] else chosen
    if chosen.contains "Marketer" then chosen else chosen ++ ["Marketer"]

/-- The accumulating workflow state (`AgentState` in the source; the
`thread_id` only tags the checkpointer configuration and never enters
the state object). -/
structure WorkflowState where
  user_prompt : String
  route : List String
  agent_outputs : List Json
  messages : List Json
  final_decision : Option Json

/-- The external completion service, one `ask_ollama`-coerced reply per
agent node, plus the `json.loads` the marketer applies to stringified
non-dict replies. -/
structure LlmOracle where
  sentResp : Json
  purchResp : Json
  campResp : Json
  marketerResp : Json
  reparse : String → Option Json

/-- Does the last conversational message repeat the user prompt
(`messages[-1].get("role") == "user" and messages[-1].get("content")
== user_prompt`)? -/
def lastMsgMatches (messages : List Json) (userPrompt : String) : Bool :=
  match messages.getLast? with
  | none => false
  | some m =>
    (match m.get? "role" with | some (.str r) => r == "user" | _ => false)
      && (match m.get? "content" with | some (.str c) => c == userPrompt | _ => false)

/-- The message bookkeeping shared by the three specialist nodes. -/
def appendMessages (messages : List Json) (userPrompt : String) (out : Json) : List Json :=
  let m1 := if !userPrompt.isEmpty && !lastMsgMatches messages userPrompt then
      messages ++ [Json.obj [("role", .str "user"), ("content", .str userPrompt)]]
    else messages
  m1 ++ [Json.obj [("role", .str "assistant"), ("content", out)]]

/-- The body shared by `sentiment_node`/`purchase_node`/`campaign_node`:
tag the agent's output, append it to `agent_outputs`, and update the
conversational messages. -/
def specialistNode (agentTag : String) (out0 : Json) (st : WorkflowState) : WorkflowState :=
  let out := out0.objSet "agent" (.str agentTag)
  { st with agent_outputs := st.agent_outputs ++ [out],
            messages := appendMessages st.messages st.user_prompt out }

/-- `sentiment_node`. -/
def sentimentNode (o : LlmOracle) (st : WorkflowState) : Except String WorkflowState :=
  .ok (specialistNode "sentiment" (analyzeSentiment o.sentResp) st)

/-- `purchase_node` (the one specialist whose analyze can raise). -/
def purchaseNode (o : LlmOracle) (st : WorkflowState) : Except String WorkflowState := do
  let out ← analyzePurchases o.purchResp
  .ok (specialistNode "purchase" out st)

/-- `campaign_node`. -/
def campaignNode (o : LlmOracle) (st : WorkflowState) : Except String WorkflowState :=
  .ok (specialistNode "campaign" (analyzeCampaigns o.campResp) st)

/-- `next(o for o in outputs if o.get("agent") == tag)` with a `{}`
default. -/
def findAgentOut (outputs : List Json) (tag : String) : Json :=
  (outputs.find? (fun o => match o.get? "agent" with
    | some (.str s) => s == tag
    | _ => false)).getD (.obj [])

/-- `marketer_node`: look the three specialist outputs up by tag, run
`combine_insights`, append a marketer trace entry to `agent_outputs`,
and set `final_decision`.  (`combine_insights` returns a dict on every
non-raising path, so the node's `None`/non-dict defensive wrappers are
no-ops.) -/
def marketerNode (o : LlmOracle) (st : WorkflowState) : Except String WorkflowState := do
  let outputs := st.agent_outputs
  let sentimentOut := findAgentOut outputs "sentiment"
  let purchaseOut := findAgentOut outputs "purchase"
  let campaignOut := findAgentOut outputs "campaign"
  let decision ← combineInsights o.reparse campaignOut purchaseOut sentimentOut o.marketerResp
  let marketerEntry := Json.obj [
    ("agent", .str "marketer"),
    ("summary", pyOr (decision.getD "executive_summary" .null)
      (pyOr (decision.getD "summary" .null) (.str "No summary available"))),
    ("key_findings", decision.getD "key_findings" (.obj [])),
    ("final_campaign", decision.getD "final_campaign" (.obj [])),
    ("strategic_recommendations",
      decision.getD "strategic_recommendations" (decision.getD "recommendations" (.arr []))),
    ("raw_decision", decision)]
  .ok { st with
    agent_outputs := st.agent_outputs ++ [marketerEntry],
    messages := st.messages ++ [Json.obj [("role", .str "assistant"), ("content", decision)]],
    final_decision := some decision }

/-- The conditional-edge selector: the first element of the route not
yet covered by `visited`, defaulting to Marketer. -/
def nextAfter (visited : List String) (route : List String) : String :=
  (route.find? (fun r => !visited.contains r)).getD "Marketer"

/-- One pass of the compiled graph from a given node.  The graph is a
finite acyclic pipeline (each conditional edge moves strictly forward
in the canonical Sentiment → Purchase → Campaign → Marketer order), so
a fuel of 5 is never exhausted on router-produced routes. -/
def execFrom (o : LlmOracle) : Nat → String → WorkflowState → Except String WorkflowState
  | 0, _, _ => .error "unreachable: fuel exhausted"
  | n + 1, node, st =>
    match node with
    | "Sentiment" => do
      let st' ← sentimentNode o st
      execFrom o n (nextAfter ["Sentiment"] st'.route) st'
    | "Purchase" => do
      let st' ← purchaseNode o st
      execFrom o n (nextAfter ["Sentiment", "Purchase"] st'.route) st'
    | "Campaign" => do
      let st' ← campaignNode o st
      execFrom o n "Marketer" st'
    | "Marketer" => marketerNode o st
    | _ => .error "KeyError: unknown graph node"

/-- `run_flow`: router first (setting the route once), then the graph
from the route's first element.  The `thread_id` only configures the
in-memory checkpointer and does not influence the computed state. -/
def runFlow (o : LlmOracle) (userPrompt : String) : Except String WorkflowState :=
  let route := routerRoute userPrompt
  execFrom o 5 (route.headD "Marketer")
    { user_prompt := userPrompt, route := route, agent_outputs := [],
      messages := [], final_decision := none }

/-! ## Supporting lemmas -/

/-- When a string already has at least as many `'}'` as `'{'`, the
closing-brace heuristic leaves it unchanged. -/
theorem closeBracesHeuristic_of_le {s : String}
    (h : s.toList.count '{' ≤ s.toList.count '}') : closeBracesHeuristic s = s := by
  unfold closeBracesHeuristic
  rw [if_neg (by omega)]

/-- The closing-brace heuristic appends exactly the (truncated)
difference of brace counts. -/
theorem closeBracesHeuristic_eq (s : String) :
    closeBracesHeuristic s
      = s ++ String.mk (List.replicate (s.toList.count '{' - s.toList.count '}') '}') := by
  unfold closeBracesHeuristic
  by_cases h : s.toList.count '{' > s.toList.count '}'
  · rw [if_pos h]
  · rw [if_neg h]
    have h0 : s.toList.count '{' - s.toList.count '}' = 0 := by omega
    rw [h0]
    show s = s ++ ""
    rw [String.append_empty]

/-- Character counts of the heuristic's output. -/
theorem closeBracesHeuristic_counts (s : String) :
    (closeBracesHeuristic s).toList.count '{' = s.toList.count '{'
      ∧ (closeBracesHeuristic s).toList.count '}'
        = s.toList.count '}' + (s.toList.count '{' - s.toList.count '}') := by
  rw [closeBracesHeuristic_eq s]
  have hsplit : (s ++ String.mk (List.replicate (s.toList.count '{' - s.toList.count '}') '}')).toList
      = s.toList ++ List.replicate (s.toList.count '{' - s.toList.count '}') '}' := rfl
  rw [hsplit]
  constructor
  · rw [List.count_append, List.count_replicate]
    simp
  · rw [List.count_append, List.count_replicate]
    simp

/-- Does this insight/recommendation item carry a numeric `confidence`
in `[0, 1]`? -/
def confInUnitB (item : Json) : Bool :=
  match item.get? "confidence" with
  | some (.num q) => decide (0 ≤ q) && decide (q ≤ 1)
  | _ => false

/-- Is this value a list all of whose items have confidence in
`[0, 1]`? -/
def listAllConfInUnit : Json → Bool
  | .arr xs => xs.all confInUnitB
  | _ => false

/-- Does every insight and recommendation of an agent output carry
confidence in `[0, 1]`? -/
def allConfsInUnit (out : Json) : Bool :=
  listAllConfInUnit (out.getD "insights" .null)
    && listAllConfInUnit (out.getD "recommendations" .null)

/-- The guarded confidence conversion lands in `[0, 1]`. -/
theorem clampConf_mem (v : Json) : 0 ≤ clampConf v ∧ clampConf v ≤ 1 := by
  unfold clampConf
  cases pyFloat? v with
  | none => norm_num
  | some c =>
    refine ⟨le_max_left _ _, max_le (by norm_num) ?_⟩
    exact min_le_left _ _

/-- `round(x, 2)` keeps the unit interval. -/
theorem round2_mem (q : ℚ) (h0 : 0 ≤ q) (h1 : q ≤ 1) :
    0 ≤ round2 q ∧ round2 q ≤ 1 := by
  unfold round2
  constructor
  · apply div_nonneg _ (by norm_num)
    have : (0 : ℤ) ≤ ⌊q * 100 + 1 / 2⌋ := by
      rw [Int.le_floor]
      push_cast
      linarith
    exact_mod_cast this
  · rw [div_le_one (by norm_num)]
    have : ⌊q * 100 + 1 / 2⌋ ≤ (100 : ℤ) := by
      rw [Int.floor_le_iff]
      push_cast
      linarith
    exact_mod_cast this

/-- A two-key idea/confidence object passes the unit-interval check when
its confidence does. -/
theorem confInUnitB_ideaObj (i : String) (q : ℚ) (h0 : 0 ≤ q) (h1 : q ≤ 1) :
    confInUnitB (Json.obj [("idea", .str i), ("confidence", .num q)]) = true := by
  have h : (Json.obj [("idea", .str i), ("confidence", .num q)]).get? "confidence"
      = some (.num q) := rfl
  unfold confInUnitB
  rw [h]
  simp [h0, h1]

/-- A normalized insight (the shared sentiment/campaign loop) passes the
unit-interval check. -/
theorem confInUnitB_mkInsight (it : Json) : confInUnitB (mkInsight it) = true := by
  obtain ⟨h0, h1⟩ := clampConf_mem (it.getD "confidence" (.num 0))
  unfold mkInsight confInUnitB
  simp only [Json.get?]
  simp [h0, h1]

/-- The raw-text fallback insight passes the unit-interval check. -/
theorem confInUnitB_rawTextInsight (s : String) :
    confInUnitB (rawTextInsight s) = true := by
  unfold rawTextInsight confInUnitB
  simp [Json.get?]

/-- The confidence field of an insight produced by the shared
normalization loop or the raw-text fallback. -/
theorem insight_conf_fact (resp : Json) {it : Json}
    (h : it ∈ parsedInsights resp ∨ ∃ s, it = rawTextInsight s) :
    ∃ q, it.get? "confidence" = some (.num q) ∧ 0 ≤ q ∧ q ≤ 1 := by
  rcases h with h | ⟨s, rfl⟩
  · unfold parsedInsights at h
    rcases hg : Json.get? resp "insights" with _ | j
    · rw [hg] at h
      simp at h
    · rw [hg] at h
      cases j with
      | arr xs =>
        simp only [List.mem_filterMap] at h
        obtain ⟨it0, _, hmk⟩ := h
        by_cases hobj : it0.isObj
        · rw [if_pos hobj] at hmk
          obtain rfl := Option.some_injective _ hmk
          refine ⟨clampConf (it0.getD "confidence" (.num 0)), rfl, clampConf_mem _⟩
        · rw [if_neg hobj] at hmk
          cases hmk
      | null => simp at h
      | bool b => simp at h
      | num q => simp at h
      | str s => simp at h
      | obj kvs => simp at h
  · exact ⟨0, rfl, le_refl 0, by norm_num⟩

/-- The sentiment fallback recommendation keeps a unit-interval
confidence when the insight it templates from has one. -/
theorem confInUnitB_sentFallbackRec (it : Json) (q : ℚ)
    (h : it.get? "confidence" = some (.num q)) (h0 : 0 ≤ q) (h1 : q ≤ 1) :
    confInUnitB (sentFallbackRec it) = true := by
  have hc : (pyFloat? (it.getD "confidence" (.num 0))).getD 0 = q := by
    simp [Json.getD, h, pyFloat?]
  unfold sentFallbackRec
  rw [hc]
  split
  · obtain ⟨g0, g1⟩ := round2_mem (min 1 (q + 1 / 10))
      (le_min (by norm_num) (by linarith)) (min_le_left _ _)
    exact confInUnitB_ideaObj _ _ g0 g1
  · obtain ⟨g0, g1⟩ := round2_mem _ h0 h1
    exact confInUnitB_ideaObj _ _ g0 g1

/-- The campaign fallback recommendation keeps a unit-interval
confidence when the insight it templates from has one. -/
theorem confInUnitB_campFallbackRec (it : Json) (q : ℚ)
    (h : it.get? "confidence" = some (.num q)) (h0 : 0 ≤ q) (h1 : q ≤ 1) :
    confInUnitB (campFallbackRec it) = true := by
  have hc : (pyFloat? (it.getD "confidence" (.num 0))).getD 0 = q := by
    simp [Json.getD, h, pyFloat?]
  unfold campFallbackRec
  rw [hc]
  dsimp only
  by_cases hq : q = 0
  · rw [if_pos hq]
    obtain ⟨g0, g1⟩ := round2_mem ((6 : ℚ) / 10) (by norm_num) (by norm_num)
    exact confInUnitB_ideaObj _ _ g0 g1
  · rw [if_neg hq]
    obtain ⟨g0, g1⟩ := round2_mem _ h0 h1
    exact confInUnitB_ideaObj _ _ g0 g1

/-- Every parsed recommendation passes the unit-interval check. -/
theorem parsedRecs_all_conf (resp : Json) :
    (parsedRecs resp).all confInUnitB = true := by
  unfold parsedRecs
  rcases hg : Json.get? resp "recommendations" with _ | j
  · rfl
  · cases j with
    | arr xs =>
      rw [List.all_eq_true]
      intro x hx
      simp only [List.mem_filterMap] at hx
      obtain ⟨r0, _, hmk⟩ := hx
      unfold mkRec at hmk
      cases r0 with
      | obj kvs =>
        simp only at hmk
        split at hmk
        · cases hmk
        · obtain rfl := Option.some_injective _ hmk
          obtain ⟨h0, h1⟩ := clampConf_mem ((Json.obj kvs).getD "confidence" (.num 0))
          exact confInUnitB_ideaObj _ _ h0 h1
      | str s =>
        simp only at hmk
        split at hmk
        · cases hmk
        · obtain rfl := Option.some_injective _ hmk
          exact confInUnitB_ideaObj _ _ (le_refl 0) (by norm_num)
      | null => cases hmk
      | bool b => cases hmk
      | num q => cases hmk
      | arr ys => cases hmk
    | null => rfl
    | bool b => rfl
    | num q => rfl
    | str s => rfl
    | obj kvs => rfl

/-- Every normalized insight passes the unit-interval check. -/
theorem parsedInsights_all_conf (resp : Json) :
    (parsedInsights resp).all confInUnitB = true := by
  rw [List.all_eq_true]
  intro it hit
  obtain ⟨q, hq, h0, h1⟩ := insight_conf_fact resp (Or.inl hit)
  unfold confInUnitB
  rw [hq]
  simp [h0, h1]

/-- The agent-output wrapper: unit-interval confidences of the parts
give the whole. -/
theorem allConfsInUnit_mk (s : String) (km : Json) (ins recs : List Json)
    (hins : ins.all confInUnitB = true) (hrecs : recs.all confInUnitB = true) :
    allConfsInUnit (Json.obj [("summary", .str s), ("key_metrics", km),
      ("insights", .arr ins), ("recommendations", .arr recs)]) = true := by
  have h1 : (Json.obj [("summary", .str s), ("key_metrics", km),
      ("insights", .arr ins), ("recommendations", .arr recs)]).getD "insights" .null
      = .arr ins := rfl
  have h2 : (Json.obj [("summary", .str s), ("key_metrics", km),
      ("insights", .arr ins), ("recommendations", .arr recs)]).getD "recommendations" .null
      = .arr recs := rfl
  unfold allConfsInUnit
  rw [h1, h2]
  simp [listAllConfInUnit, hins, hrecs]

/-- `takeWhile` commutes with `take`. -/
theorem takeWhile_take {α : Type} (p : α → Bool) (l : List α) (n : Nat) :
    (l.take n).takeWhile p = (l.takeWhile p).take n := by
  induction l generalizing n with
  | nil => simp
  | cons c t ih =>
    cases n with
    | zero => simp
    | succ m =>
      by_cases hp : p c
      · simp [List.take_succ_cons, List.takeWhile_cons, hp, ih]
      · simp [List.take_succ_cons, List.takeWhile_cons, hp]

/-- Taking 300 characters of the first line of a 1000-character
truncation equals taking 300 characters of the first line of the
untruncated text (the code computes the left side; the claim speaks of
the right side). -/
theorem firstLine_of_truncation (raw : String) :
    strTake (firstLine (strTake raw 1000)) 300 = strTake (firstLine raw) 300 := by
  unfold strTake firstLine
  show String.mk (((raw.toList.take 1000).takeWhile _).take 300) = _
  rw [takeWhile_take, List.take_take]
  norm_num

/-- `analyze_sentiment` on a non-dict reply. -/
theorem analyzeSentiment_nondict (resp : Json) (h : resp.isObj = false) :
    analyzeSentiment resp = Json.obj [
      ("summary", .str (strTake (pyStr resp) 1000)),
      ("key_metrics", .obj []),
      ("insights", .arr [rawTextInsight (strTake (pyStr resp) 1000)]),
      ("recommendations", .arr [Json.obj
        [("idea", .str "No structured recommendation parsed from model output"),
         ("confidence", .num 0)]])] := by
  unfold analyzeSentiment
  simp [h]

/-- `analyze_campaigns` on a non-dict reply (its parsed recommendations
are empty, so the fallback derivation runs on the single raw-text
insight). -/
theorem analyzeCampaigns_nondict (resp : Json) (h : resp.isObj = false) :
    analyzeCampaigns resp = Json.obj [
      ("summary", .str (strOr (strTake (pyStr resp) 1000) "No summary available")),
      ("key_metrics", .obj []),
      ("insights", .arr [rawTextInsight (strTake (pyStr resp) 1000)]),
      ("recommendations", .arr [campFallbackRec (rawTextInsight (strTake (pyStr resp) 1000))])] := by
  unfold analyzeCampaigns
  simp [h]

/-- `analyze_purchases` on a non-dict reply: untruncated raw summary,
empty insights, empty recommendations. -/
theorem analyzePurchases_nondict (resp : Json) (h : resp.isObj = false) :
    analyzePurchases resp = .ok (Json.obj [
      ("summary", .str (pyStr resp)), ("key_metrics", .obj []),
      ("insights", .arr []), ("recommendations", .arr [])]) := by
  unfold analyzePurchases
  simp [h]

/-- The number of insights in an agent output. -/
def insightCount (out : Json) : Nat :=
  match out.getD "insights" .null with
  | .arr xs => xs.length
  | _ => 0

/-- The `idea` string of a recommendation object. -/
def ideaOf (r : Json) : String :=
  match r.get? "idea" with
  | some (.str s) => s
  | _ => ""

/-- The empty string occurs in every string. -/
theorem mentions_empty (hay : String) : Mentions hay "" :=
  ⟨hay, "", by rw [String.append_empty, String.append_empty]⟩

/-- A string occurs in any concatenation that embeds it. -/
theorem mentions_part (x needle y : String) : Mentions (x ++ needle ++ y) needle :=
  ⟨x, y, rfl⟩

/-- `str(a or d)` on strings: the default when `a` is empty. -/
theorem pyStr_pyOr_str (a d : String) :
    pyStr (pyOr (.str a) (.str d)) = if a.isEmpty then d else a := by
  unfold pyOr Json.pyTruthy pyStr
  by_cases h : a.isEmpty <;> simp [h]

/-- `analyze_sentiment` on a dict reply. -/
theorem analyzeSentiment_obj (resp : Json) (h : resp.isObj = true) :
    analyzeSentiment resp = Json.obj [
      ("summary", .str (strTake (pyStr (pyOr (resp.getD "summary" (.str ""))
        (resp.getD "executive_summary" (.str "")))) 1000)),
      ("key_metrics", if (resp.getD "key_metrics" (.obj [])).isObj
        then resp.getD "key_metrics" (.obj []) else .obj []),
      ("insights", .arr (parsedInsights resp)),
      ("recommendations", .arr (if (parsedRecs resp).isEmpty
        then ((parsedInsights resp).take 2).map sentFallbackRec
        else parsedRecs resp))] := by
  unfold analyzeSentiment
  rw [h]
  simp

/-- `analyze_campaigns` on a dict reply. -/
theorem analyzeCampaigns_obj (resp : Json) (h : resp.isObj = true) :
    analyzeCampaigns resp = Json.obj [
      ("summary", .str (strOr (strTake (pyStr (pyOr (resp.getD "summary" .null)
        (pyOr (resp.getD "executive_summary" .null) (.str "")))) 1000)
        "No summary available")),
      ("key_metrics", pyOr (resp.getD "key_metrics" (.obj [])) (.obj [])),
      ("insights", .arr (parsedInsights resp)),
      ("recommendations", .arr (if (parsedRecs resp).isEmpty
          && !(parsedInsights resp).isEmpty
        then ((parsedInsights resp).take 2).map campFallbackRec
        else parsedRecs resp))] := by
  unfold analyzeCampaigns
  rw [h]
  simp

/-- A reply with a non-empty parsed insight list is a dict. -/
theorem isObj_of_parsedInsights_ne_nil {resp : Json}
    (h : parsedInsights resp ≠ []) : resp.isObj = true := by
  unfold parsedInsights at h
  cases resp with
  | obj kvs => rfl
  | null => exact absurd rfl h
  | bool b => exact absurd rfl h
  | num q => exact absurd rfl h
  | str s => exact absurd rfl h
  | arr xs => exact absurd rfl h

/-- On all-dict insight items, the purchase fallback derivation cannot
raise. -/
theorem mapM_purchDeriveRec_ok (xs : List Json) (h : ∀ x ∈ xs, x.isObj = true) :
    xs.mapM purchDeriveRec = .ok (xs.map purchRecObj) := by
  induction xs with
  | nil => rfl
  | cons x t ih =>
    have hx : x.isObj = true := h x (List.mem_cons_self x t)
    have ht := ih (fun y hy => h y (List.mem_cons_of_mem x hy))
    have hstep : purchDeriveRec x = .ok (purchRecObj x) := by
      unfold purchDeriveRec
      rw [hx]
      simp
    rw [List.mapM_cons, hstep, ht]
    rfl

/-- The `idea` field of a two-key recommendation object. -/
theorem ideaOf_obj (s : String) (c : Json) :
    ideaOf (Json.obj [("idea", Json.str s), ("confidence", c)]) = s := rfl

/-- The sentiment fallback idea mentions the insight's audience segment
and product focus. -/
theorem sentFallbackRec_mentions (it : Json) (a p : String)
    (ha : it.get? "audience_segment" = some (.str a))
    (hp : it.get? "product_focus" = some (.str p)) :
    Mentions (ideaOf (sentFallbackRec it)) a
      ∧ Mentions (ideaOf (sentFallbackRec it)) p := by
  have ha' : it.getD "audience_segment" .null = .str a := by simp [Json.getD, ha]
  have hp' : it.getD "product_focus" .null = .str p := by simp [Json.getD, hp]
  unfold sentFallbackRec
  rw [ha', hp']
  dsimp only
  constructor
  · split
    · rw [ideaOf_obj, pyStr_pyOr_str a "target audience"]
      by_cases hae : a.isEmpty
      · rw [String.isEmpty_iff] at hae
        subst hae
        exact mentions_empty _
      · rw [if_neg hae]
        have hm := mentions_part "Promote EMI offers to " a
          (" for " ++ pyStr (pyOr (Json.str p) (Json.str "product")))
        simpa [String.append_assoc] using hm
    · rw [ideaOf_obj, pyStr_pyOr_str a "target audience"]
      by_cases hae : a.isEmpty
      · rw [String.isEmpty_iff] at hae
        subst hae
        exact mentions_empty _
      · rw [if_neg hae]
        have hm := mentions_part "Target " a
          (" with a short campaign focused on "
            ++ pyStr (pyOr (Json.str p) (Json.str "product")) ++ " benefits")
        simpa [String.append_assoc] using hm
  · split
    · rw [ideaOf_obj, pyStr_pyOr_str p "product"]
      by_cases hpe : p.isEmpty
      · rw [String.isEmpty_iff] at hpe
        subst hpe
        exact mentions_empty _
      · rw [if_neg hpe]
        have hm := mentions_part ("Promote EMI offers to "
          ++ pyStr (pyOr (Json.str a) (Json.str "target audience")) ++ " for ") p ""
        simpa [String.append_assoc, String.append_empty] using hm
    · rw [ideaOf_obj, pyStr_pyOr_str p "product"]
      by_cases hpe : p.isEmpty
      · rw [String.isEmpty_iff] at hpe
        subst hpe
        exact mentions_empty _
      · rw [if_neg hpe]
        have hm := mentions_part ("Target "
          ++ pyStr (pyOr (Json.str a) (Json.str "target audience"))
          ++ " with a short campaign focused on ") p " benefits"
        simpa [String.append_assoc, String.append_empty] using hm

/-- The campaign fallback idea mentions the insight's audience segment
and product focus. -/
theorem campFallbackRec_mentions (it : Json) (a p : String)
    (ha : it.get? "audience_segment" = some (.str a))
    (hp : it.get? "product_focus" = some (.str p)) :
    Mentions (ideaOf (campFallbackRec it)) a
      ∧ Mentions (ideaOf (campFallbackRec it)) p := by
  have ha' : it.getD "audience_segment" .null = .str a := by simp [Json.getD, ha]
  have hp' : it.getD "product_focus" .null = .str p := by simp [Json.getD, hp]
  unfold campFallbackRec
  rw [ha', hp']
  dsimp only
  constructor
  · rw [ideaOf_obj, pyStr_pyOr_str a "customers"]
    by_cases hae : a.isEmpty
    · rw [String.isEmpty_iff] at hae
      subst hae
      exact mentions_empty _
    · rw [if_neg hae]
      have hm := mentions_part "Run tailored ads for " a
        (" focusing on " ++ pyStr (pyOr (Json.str p) (Json.str "product")) ++ " benefits")
      simpa [String.append_assoc] using hm
  · rw [ideaOf_obj, pyStr_pyOr_str p "product"]
    by_cases hpe : p.isEmpty
    · rw [String.isEmpty_iff] at hpe
      subst hpe
      exact mentions_empty _
    · rw [if_neg hpe]
      have hm := mentions_part ("Run tailored ads for "
        ++ pyStr (pyOr (Json.str a) (Json.str "customers")) ++ " focusing on ") p " benefits"
      simpa [String.append_assoc, String.append_empty] using hm

/-- The purchase fallback idea mentions the insight's audience segment
and product focus (the raw field values are interpolated without an
emptiness default). -/
theorem purchRecObj_mentions (it : Json) (a p : String)
    (ha : it.get? "audience_segment" = some (.str a))
    (hp : it.get? "product_focus" = some (.str p)) :
    Mentions (ideaOf (purchRecObj it)) a ∧ Mentions (ideaOf (purchRecObj it)) p := by
  have ha' : it.getD "audience_segment" (.str "customers") = .str a := by
    simp [Json.getD, ha]
  have hp' : it.getD "product_focus" (.str "products") = .str p := by
    simp [Json.getD, hp]
  unfold purchRecObj
  rw [ha', hp']
  constructor
  · rw [show pyStr (Json.str a) = a from rfl, show pyStr (Json.str p) = p from rfl,
      ideaOf_obj]
    have hm := mentions_part "Target " a (" with a campaign highlighting " ++ p)
    simpa [String.append_assoc] using hm
  · rw [show pyStr (Json.str a) = a from rfl, show pyStr (Json.str p) = p from rfl,
      ideaOf_obj]
    have hm := mentions_part ("Target " ++ a ++ " with a campaign highlighting ") p ""
    simpa [String.append_assoc, String.append_empty] using hm

/-- Lookup after a dict assignment at the same key. -/
theorem objSet_get?_same {j : Json} (hj : j.isObj = true) (k : String) (v : Json) :
    (j.objSet k v).get? k = some v := by
  cases j with
  | obj kvs =>
    clear hj
    induction kvs with
    | nil => simp [Json.objSet, Json.setKVs, Json.get?, List.find?]
    | cons kv rest ih =>
      obtain ⟨k', v'⟩ := kv
      by_cases hk : k' == k
      · simp [Json.objSet, Json.setKVs, Json.get?, List.find?, hk]
      · simp only [Json.objSet, Json.setKVs, hk, Bool.false_eq_true, if_false]
        simp only [Json.objSet, Json.get?, List.find?, hk] at ih ⊢
        exact ih
  | null => exact absurd hj (by simp [Json.isObj])
  | bool b => exact absurd hj (by simp [Json.isObj])
  | num q => exact absurd hj (by simp [Json.isObj])
  | str s => exact absurd hj (by simp [Json.isObj])
  | arr xs => exact absurd hj (by simp [Json.isObj])

/-- Lookup after a dict assignment at a different key. -/
theorem objSet_get?_ne (j : Json) (k k' : String) (v : Json) (h : (k' == k) = false) :
    (j.objSet k v).get? k' = j.get? k' := by
  cases j with
  | obj kvs =>
    induction kvs with
    | nil =>
      simp only [Json.objSet, Json.setKVs, Json.get?, List.find?]
      have : (k == k') = false := by
        rw [beq_eq_false_iff_ne] at h ⊢
        exact fun hh => h hh.symm
      simp [this]
    | cons kv rest ih =>
      obtain ⟨k'', v''⟩ := kv
      by_cases hk : k'' == k
      · have hne : (k'' == k') = false := by
          rw [beq_eq_false_iff_ne] at h ⊢
          rw [beq_iff_eq] at hk
          subst hk
          exact fun hh => h hh.symm
        simp [Json.objSet, Json.setKVs, Json.get?, List.find?, hk, hne]
      · simp only [Json.objSet, Json.setKVs, hk, Bool.false_eq_true, if_false]
        by_cases hk2 : k'' == k'
        · simp [Json.get?, List.find?, hk2]
        · simp only [Json.objSet, Json.get?, List.find?, hk2, Bool.false_eq_true,
            if_false] at ih ⊢
          exact ih
  | null => rfl
  | bool b => rfl
  | num q => rfl
  | str s => rfl
  | arr xs => rfl

/-- Dict assignment keeps dicts dicts. -/
theorem objSet_isObj {j : Json} (hj : j.isObj = true) (k : String) (v : Json) :
    (j.objSet k v).isObj = true := by
  cases j with
  | obj kvs => rfl
  | null => exact hj
  | bool b => exact hj
  | num q => exact hj
  | str s => exact hj
  | arr xs => exact hj

/-- Is this value a non-empty list of strings? -/
def nonEmptyStrList : Json → Bool
  | .arr (x :: xs) => (x :: xs).all Json.isStr
  | _ => false

/-- Does this value have exactly the keys `sentiment`/`purchase`/
`campaign`, each a list of strings? -/
def kfShapeB : Json → Bool
  | .obj [("sentiment", .arr v1), ("purchase", .arr v2), ("campaign", .arr v3)] =>
    v1.all Json.isStr && v2.all Json.isStr && v3.all Json.isStr
  | _ => false

/-- Does this value carry all nine final-campaign keys, with non-empty
string lists for `channels` and `kpis`? -/
def finalCampaignShapeB (fc : Json) : Bool :=
  (["campaign_name", "product", "region", "audience_segment", "concept",
    "channels", "content_brief", "kpis", "rationale"].all
      (fun k => (fc.get? k).isSome))
    && nonEmptyStrList (fc.getD "channels" .null)
    && nonEmptyStrList (fc.getD "kpis" .null)

/-- The Final Decision completeness property of C1: the four top-level
keys are present, `key_findings` has exactly the three expected agent
keys each holding a list of strings, and the final campaign's
`channels` and `kpis` are non-empty lists of strings. -/
def fullyPopulatedB (d : Json) : Bool :=
  (d.get? "executive_summary").isSome
    && kfShapeB (d.getD "key_findings" .null)
    && finalCampaignShapeB (d.getD "final_campaign" .null)
    && (d.get? "source_agents").isSome

/-- A `listOr` with a non-empty default is non-empty. -/
theorem listOr_ne_nil {α : Type} (a b : List α) (hb : b ≠ []) : listOr a b ≠ [] := by
  unfold listOr
  by_cases ha : a.isEmpty
  · rw [if_pos ha]
    exact hb
  · rw [if_neg ha]
    intro hh
    rw [hh] at ha
    exact ha rfl

/-- A mapped string list is all-strings. -/
theorem all_isStr_map (m : List String) : (m.map Json.str).all Json.isStr = true := by
  induction m with
  | nil => rfl
  | cons a t ih => simp [Json.isStr, ih]

/-- A non-empty mapped string list passes `nonEmptyStrList`. -/
theorem nonEmptyStrList_map {l : List String} (h : l ≠ []) :
    nonEmptyStrList (.arr (l.map Json.str)) = true := by
  cases l with
  | nil => exact absurd rfl h
  | cons x t => simpa [nonEmptyStrList] using all_isStr_map (x :: t)

/-- The normalized key findings always have the exact three-key
all-string shape. -/
theorem kfShapeB_normalize (maybeKf : Json) (sources : List String) :
    kfShapeB (normalizeKeyFindings maybeKf sources) = true := by
  unfold normalizeKeyFindings kfShapeB
  simp [all_isStr_map]

/-- The rebuilt final campaign always has all nine keys with non-empty
string-list channels and KPIs. -/
theorem finalCampaignShapeB_ensure (raw campaignRef purchaseRef sentimentRef : Json) :
    finalCampaignShapeB (ensureFinalCampaignShape raw campaignRef purchaseRef sentimentRef)
      = true := by
  unfold ensureFinalCampaignShape
  dsimp only
  unfold finalCampaignShapeB
  rw [Bool.and_eq_true, Bool.and_eq_true]
  refine ⟨⟨rfl, ?_⟩, ?_⟩
  · show nonEmptyStrList (Json.arr (List.map Json.str _)) = true
    exact nonEmptyStrList_map (listOr_ne_nil _ _ (by simp))
  · show nonEmptyStrList (Json.arr (List.map Json.str _)) = true
    exact nonEmptyStrList_map (listOr_ne_nil _ _ (by simp))

/-- The final safety loop is the identity when all four keys are
present. -/
theorem ensureFinalKeys_of_present {r : Json}
    (h1 : (r.get? "executive_summary").isSome)
    (h2 : (r.get? "key_findings").isSome)
    (h3 : (r.get? "final_campaign").isSome)
    (h4 : (r.get? "source_agents").isSome) :
    ensureFinalKeys r = r := by
  unfold ensureFinalKeys setIfAbsent
  dsimp only
  rw [if_pos h1, if_pos h2, if_pos h3, if_pos h4]

/-- The repair chain of `finalizeDecision` always yields a fully
populated decision on a dict `result`, whatever the executive summary
came out as. -/
theorem finalize_core_shape (result : Json) (hobj : result.isObj = true)
    (sources : List String) (es : String)
    (campaignRef purchaseRef sentimentRef : Json) :
    let r1 := result.objSet "key_findings"
      (normalizeKeyFindings (result.getD "key_findings" (.obj [])) sources)
    let r2 := r1.objSet "executive_summary" (.str es)
    let r3 := if (match r2.get? "source_agents" with | some (.arr _) => true | _ => false)
      then r2 else r2.objSet "source_agents" (.arr (sources.map Json.str))
    let r4 := r3.objSet "final_campaign"
      (ensureFinalCampaignShape r3 campaignRef purchaseRef sentimentRef)
    fullyPopulatedB (ensureFinalKeys r4) = true := by
  intro r1 r2 r3 r4
  have b1 : ("key_findings" == "final_campaign") = false := rfl
  have b2 : ("key_findings" == "executive_summary") = false := rfl
  have b3 : ("key_findings" == "source_agents") = false := rfl
  have b4 : ("executive_summary" == "final_campaign") = false := rfl
  have b5 : ("executive_summary" == "source_agents") = false := rfl
  have b6 : ("source_agents" == "final_campaign") = false := rfl
  have hr1 : r1.isObj = true := objSet_isObj hobj _ _
  have hr2 : r2.isObj = true := objSet_isObj hr1 _ _
  have hr3 : r3.isObj = true := by
    show (if _ then r2 else _).isObj = true
    split
    · exact hr2
    · exact objSet_isObj hr2 _ _
  have hkf : r4.get? "key_findings"
      = some (normalizeKeyFindings (result.getD "key_findings" (.obj [])) sources) := by
    show (r3.objSet "final_campaign" _).get? "key_findings" = _
    rw [objSet_get?_ne _ _ _ _ b1]
    show (if _ then r2 else _).get? _ = _
    split
    · rw [objSet_get?_ne _ _ _ _ b2]
      exact objSet_get?_same hobj _ _
    · rw [objSet_get?_ne _ _ _ _ b3, objSet_get?_ne _ _ _ _ b2]
      exact objSet_get?_same hobj _ _
  have hes4 : r4.get? "executive_summary" = some (.str es) := by
    show (r3.objSet "final_campaign" _).get? "executive_summary" = _
    rw [objSet_get?_ne _ _ _ _ b4]
    show (if _ then r2 else _).get? _ = _
    split
    · exact objSet_get?_same hr1 _ _
    · rw [objSet_get?_ne _ _ _ _ b5]
      exact objSet_get?_same hr1 _ _
  have hsa : (r4.get? "source_agents").isSome = true := by
    show (((if _ then r2 else _).objSet "final_campaign" _).get? "source_agents").isSome
      = true
    rw [objSet_get?_ne _ _ _ _ b6]
    by_cases hc : (match r2.get? "source_agents" with
      | some (.arr _) => true | _ => false) = true
    · rw [if_pos hc]
      rcases hm : r2.get? "source_agents" with _ | v
      · rw [hm] at hc
        simp at hc
      · rfl
    · rw [if_neg hc, objSet_get?_same hr2 _ _]
      rfl
  have hfc : r4.get? "final_campaign"
      = some (ensureFinalCampaignShape r3 campaignRef purchaseRef sentimentRef) :=
    objSet_get?_same hr3 _ _
  rw [ensureFinalKeys_of_present (by rw [hes4]; rfl) (by rw [hkf]; rfl)
    (by rw [hfc]; rfl) hsa]
  unfold fullyPopulatedB
  simp [Json.getD, hkf, hfc, hes4, hsa, kfShapeB_normalize, finalCampaignShapeB_ensure]

/-- Whenever `finalizeDecision` returns a decision, it is fully
populated. -/
theorem finalizeDecision_fullyPopulated
    (result : Json) (sources : List String)
    (sentSummary purchSummary campSummary campaignRef purchaseRef sentimentRef : Json)
    (d : Json)
    (h : finalizeDecision result sources sentSummary purchSummary campSummary
      campaignRef purchaseRef sentimentRef = .ok d) :
    fullyPopulatedB d = true := by
  unfold finalizeDecision at h
  by_cases hobj : result.isObj = true
  · rw [if_neg (by simp [hobj] : ¬((!result.isObj) = true))] at h
    dsimp only at h
    rcases hes : computeExecSummary
        (result.objSet "key_findings"
          (normalizeKeyFindings (result.getD "key_findings" (.obj [])) sources))
        sentSummary purchSummary campSummary with e | es
    · rw [hes] at h
      simp [Bind.bind, Except.bind] at h
    · rw [hes] at h
      simp only [Bind.bind, Except.bind, pure, Except.pure, Except.ok.injEq] at h
      subst h
      exact finalize_core_shape result hobj sources es
        campaignRef purchaseRef sentimentRef
  · rw [Bool.not_eq_true] at hobj
    rw [if_pos (by simp [hobj] : (!result.isObj) = true)] at h
    simp [throw, throwThe, MonadExceptOf.throw] at h

/-- The decision fields C9 is about, over the repair chain of
`finalizeDecision`: the key findings of the returned decision are the
normalized ones, and when the (dict) model reply carried no
`source_agents` key the computed sources list is installed. -/
theorem finalize_core_fields (result : Json) (hobj : result.isObj = true)
    (sources : List String) (es : String)
    (campaignRef purchaseRef sentimentRef : Json) :
    let kf := normalizeKeyFindings (result.getD "key_findings" (.obj [])) sources
    let r1 := result.objSet "key_findings" kf
    let r2 := r1.objSet "executive_summary" (.str es)
    let r3 := if (match r2.get? "source_agents" with | some (.arr _) => true | _ => false)
      then r2 else r2.objSet "source_agents" (.arr (sources.map Json.str))
    let r4 := r3.objSet "final_campaign"
      (ensureFinalCampaignShape r3 campaignRef purchaseRef sentimentRef)
    (ensureFinalKeys r4).getD "key_findings" .null = kf
      ∧ (result.get? "source_agents" = none →
          (ensureFinalKeys r4).get? "source_agents"
            = some (.arr (sources.map Json.str))) := by
  intro kf r1 r2 r3 r4
  have b1 : ("key_findings" == "final_campaign") = false := rfl
  have b2 : ("key_findings" == "executive_summary") = false := rfl
  have b3 : ("key_findings" == "source_agents") = false := rfl
  have b4 : ("executive_summary" == "final_campaign") = false := rfl
  have b5 : ("executive_summary" == "source_agents") = false := rfl
  have b6 : ("source_agents" == "final_campaign") = false := rfl
  have b7 : ("source_agents" == "executive_summary") = false := rfl
  have b8 : ("source_agents" == "key_findings") = false := rfl
  have hr1 : r1.isObj = true := objSet_isObj hobj _ _
  have hr2 : r2.isObj = true := objSet_isObj hr1 _ _
  have hr3 : r3.isObj = true := by
    show (if _ then r2 else _).isObj = true
    split
    · exact hr2
    · exact objSet_isObj hr2 _ _
  have hkf : r4.get? "key_findings" = some kf := by
    show (r3.objSet "final_campaign" _).get? "key_findings" = _
    rw [objSet_get?_ne _ _ _ _ b1]
    show (if _ then r2 else _).get? _ = _
    split
    · rw [objSet_get?_ne _ _ _ _ b2]
      exact objSet_get?_same hobj _ _
    · rw [objSet_get?_ne _ _ _ _ b3, objSet_get?_ne _ _ _ _ b2]
      exact objSet_get?_same hobj _ _
  have hes4 : r4.get? "executive_summary" = some (.str es) := by
    show (r3.objSet "final_campaign" _).get? "executive_summary" = _
    rw [objSet_get?_ne _ _ _ _ b4]
    show (if _ then r2 else _).get? _ = _
    split
    · exact objSet_get?_same hr1 _ _
    · rw [objSet_get?_ne _ _ _ _ b5]
      exact objSet_get?_same hr1 _ _
  have hsa : (r4.get? "source_agents").isSome = true := by
    show (((if _ then r2 else _).objSet "final_campaign" _).get? "source_agents").isSome
      = true
    rw [objSet_get?_ne _ _ _ _ b6]
    by_cases hc : (match r2.get? "source_agents" with
      | some (.arr _) => true | _ => false) = true
    · rw [if_pos hc]
      rcases hm : r2.get? "source_agents" with _ | v
      · rw [hm] at hc
        simp at hc
      · rfl
    · rw [if_neg hc, objSet_get?_same hr2 _ _]
      rfl
  have hfc : (r4.get? "final_campaign").isSome = true := by
    rw [objSet_get?_same hr3 _ _]
    rfl
  have hfix : ensureFinalKeys r4 = r4 :=
    ensureFinalKeys_of_present (by rw [hes4]; rfl) (by rw [hkf]; rfl) hfc hsa
  rw [hfix]
  constructor
  · unfold Json.getD
    rw [hkf]
    rfl
  · intro hnone
    have hr2none : r2.get? "source_agents" = none := by
      show ((result.objSet "key_findings" kf).objSet
        "executive_summary" (.str es)).get? "source_agents" = none
      rw [objSet_get?_ne _ _ _ _ b7, objSet_get?_ne _ _ _ _ b8]
      exact hnone
    show ((if _ then r2 else _).objSet "final_campaign" _).get? "source_agents" = _
    rw [objSet_get?_ne _ _ _ _ b6]
    rw [if_neg (by rw [hr2none]; simp)]
    exact objSet_get?_same hr2 _ _

/-- Whenever `finalizeDecision` returns a decision, its key findings are
the normalized ones, and a missing `source_agents` key in the (dict)
reply is replaced by the computed sources. -/
theorem finalizeDecision_fields (result : Json) (hobj : result.isObj = true)
    (sources : List String)
    (sentSummary purchSummary campSummary campaignRef purchaseRef sentimentRef : Json)
    (d : Json)
    (h : finalizeDecision result sources sentSummary purchSummary campSummary
      campaignRef purchaseRef sentimentRef = .ok d) :
    d.getD "key_findings" .null
        = normalizeKeyFindings (result.getD "key_findings" (.obj [])) sources
      ∧ (result.get? "source_agents" = none →
          d.get? "source_agents" = some (.arr (sources.map Json.str))) := by
  unfold finalizeDecision at h
  rw [if_neg (by simp [hobj] : ¬((!result.isObj) = true))] at h
  dsimp only at h
  rcases hes : computeExecSummary
      (result.objSet "key_findings"
        (normalizeKeyFindings (result.getD "key_findings" (.obj [])) sources))
      sentSummary purchSummary campSummary with e | es
  · rw [hes] at h
    simp [Bind.bind, Except.bind] at h
  · rw [hes] at h
    simp only [Bind.bind, Except.bind, pure, Except.pure, Except.ok.injEq] at h
    subst h
    exact finalize_core_fields result hobj sources es
      campaignRef purchaseRef sentimentRef

/-- A falsy value for an agent that is not in the sources gets the
not-run sentinel. -/
theorem kfEntry_not_run (maybeKf : Json) (sources : List String) (k : String)
    (hval : (kfLookup maybeKf k).pyTruthy = false)
    (hrun : sources.contains (pyCapitalize k) = false) :
    kfEntry maybeKf sources k = ["No data available (agent not run)"] := by
  unfold kfEntry
  simp [hval]
  simpa using hrun

/-- A falsy value for an agent that is in the sources gets the
ran-but-empty sentinel. -/
theorem kfEntry_ran_empty (maybeKf : Json) (sources : List String) (k : String)
    (hval : (kfLookup maybeKf k).pyTruthy = false)
    (hrun : sources.contains (pyCapitalize k) = true) :
    kfEntry maybeKf sources k = ["No key findings produced by agent"] := by
  unfold kfEntry
  simp [hval]
  simpa using hrun

/-- On a dict reply, the parse stage of `combine_insights` is the
identity. -/
theorem resolveResult_obj (reparse : String → Option Json) (resp : Json)
    (hresp : resp.isObj = true) (campS purchS sentS : Json) (sources : List String) :
    resolveResult reparse resp campS purchS sentS sources = .ok resp := by
  unfold resolveResult
  rw [if_pos hresp]
  rfl

/-! ## Claim theorems -/

/-- **C10** (confirmed).  For every string `s`, `_close_braces_heuristic`
returns `s` with exactly `max(0, count('{') - count('}'))` closing
braces appended (truncated subtraction on `ℕ` is that maximum), the
result has at least as many `'}'` as `'{'`, `s` is a prefix of the
result, and the heuristic is idempotent. -/
theorem c10_close_braces_heuristic (s : String) :
    closeBracesHeuristic s
        = s ++ String.mk (List.replicate (s.toList.count '{' - s.toList.count '}') '}')
      ∧ (closeBracesHeuristic s).toList.count '{'
          ≤ (closeBracesHeuristic s).toList.count '}'
      ∧ (∃ t : String, closeBracesHeuristic s = s ++ t)
      ∧ closeBracesHeuristic (closeBracesHeuristic s) = closeBracesHeuristic s := by
  obtain ⟨ho, hc⟩ := closeBracesHeuristic_counts s
  refine ⟨closeBracesHeuristic_eq s, by omega, ⟨_, closeBracesHeuristic_eq s⟩, ?_⟩
  exact closeBracesHeuristic_of_le (by omega)

/-- **C3** (counterexample).  The claim that
`route("Recommend a strategy using sentiments + purchase behavior")`
equals `["Sentiment", "Purchase", "Marketer"]` is false on the code:
the prompt contains the overall-strategy keyword `"strategy"`, so the
router returns all three specialists. -/
theorem c3_router_strategy_prompt_counterexample :
    routerRoute "Recommend a strategy using sentiments + purchase behavior"
      ≠ ["Sentiment", "Purchase", "Marketer"] := by
  have h : routerRoute "Recommend a strategy using sentiments + purchase behavior"
      = ["Sentiment", "Purchase", "Campaign", "Marketer"] := rfl
  rw [h]
  decide

/-- **C3** (amended).  The router applied to
`"Recommend a strategy using sentiments + purchase behavior"` returns
`["Sentiment", "Purchase", "Campaign", "Marketer"]`: the prompt has no
`"based on"` clause, and the overall-strategy rule fires on the
keyword `"strategy"` before the per-specialist scan is reached. -/
theorem c3_router_strategy_prompt_amended :
    routerRoute "Recommend a strategy using sentiments + purchase behavior"
      = ["Sentiment", "Purchase", "Campaign", "Marketer"] := rfl

/-- **C4** (counterexample).  The claim that an unreachable completion
service propagates as an exception out of the agent is false on the
code: when the primary `ollama.chat` call raises (here with message
`"connection refused"`), `ask_ollama` catches the exception and
returns the value `{"error": "ollama_error", "exception": str(e)}` —
an ordinary return (`.ok`), not an exception. -/
theorem c4_chat_exception_counterexample :
    askOllama (.error "connection refused") (fun _ => none) true []
      = .ok (ollamaErrorValue "connection refused") := rfl

/-- **C4** (amended).  When the underlying chat call raises, `ask_ollama`
catches the exception and locally recovers with
`{"error": "ollama_error", "exception": str(e)}` for every exception
message, parser, mode and repair budget; likewise
`retrieve_sentiment_data` catches a raising retrieval query and
returns the sentinel `"(error retrieving sentiment docs)"`.  No
infrastructure failure propagates out of these functions to the
workflow engine. -/
theorem c4_chat_exception_recovered (e : String) (parse : String → Option Json)
    (jsonMode : Bool) (repairs : List (Except String String)) (e' : String) :
    askOllama (.error e) parse jsonMode repairs = .ok (ollamaErrorValue e)
      ∧ retrieveSentimentData true (.error e') = "(error retrieving sentiment docs)" :=
  ⟨rfl, rfl⟩

/-- When the parser fails on everything the repair loop tries (as listed
by `repairTrace`), the loop falls through to the typed failure. -/
theorem repairLoop_all_fail (parse : String → Option Json) (content : String) :
    ∀ (rs : List (Except String String)) (cand : Option String),
      (∀ c ∈ repairTrace content cand rs, parse c = none) →
      repairLoop parse content cand rs = invalidJsonFailure content := by
  intro rs
  induction rs with
  | nil =>
    intro cand h
    have h1 : parse (closeBracesHeuristic content) = none := h _ (by simp [repairTrace])
    unfold repairLoop
    rw [h1]
    cases cand with
    | none => rfl
    | some c =>
      have h2 : parse (closeBracesHeuristic c) = none := h _ (by simp [repairTrace])
      simp [Option.bind, h2]
  | cons r rest ih =>
    intro cand h
    cases r with
    | error e =>
      have h1 : parse (closeBracesHeuristic content) = none := h _ (by simp [repairTrace])
      unfold repairLoop
      rw [h1]
      cases cand with
      | none => rfl
      | some c =>
        have h2 : parse (closeBracesHeuristic c) = none := h _ (by simp [repairTrace])
        simp [Option.bind, h2]
    | ok r' =>
      have h1 : parse r' = none := h _ (by simp [repairTrace])
      unfold repairLoop
      rw [h1]
      cases hE : extractLargestBraceGroup r' with
      | none =>
        simp only [Option.bind]
        apply ih
        intro c hc
        apply h
        simp [repairTrace, hE]
        exact Or.inr hc
      | some c =>
        have h2 : parse c = none := by
          apply h
          simp [repairTrace, hE]
        simp only [Option.bind, h2]
        apply ih
        intro c' hc'
        apply h
        simp [repairTrace, hE]
        exact Or.inr (Or.inr hc')

/-- **C2** (confirmed).  When `ask_ollama(ized)` runs in JSON mode and
every parse attempt fails — direct parse, brace-group extraction, the
repair re-prompts with both attempts repeated, and the closing-brace
heuristic on the original text and on the last extracted candidate
(`askTrace` lists exactly the texts handed to `json.loads` on such a
run) — the call returns `{"error": "Invalid JSON", "raw": content}`
as an ordinary value; no exception escapes (`Except.ok`). -/
theorem c2_invalid_json_typed_failure (parse : String → Option Json)
    (content : String) (repairs : List (Except String String))
    (hfail : ∀ c ∈ askTrace content repairs, parse c = none) :
    askOllama (.ok content) parse true repairs = .ok (invalidJsonFailure content) := by
  have h1 : parse content = none := hfail _ (by simp [askTrace])
  unfold askOllama
  simp only [Bool.not_true, Bool.false_eq_true, if_false, h1]
  cases hE : extractLargestBraceGroup content with
  | none =>
    simp only [Option.bind]
    rw [repairLoop_all_fail parse content repairs none]
    intro c hc
    apply hfail
    simp [askTrace, hE]
    exact Or.inr hc
  | some c =>
    have h2 : parse c = none := by
      apply hfail
      simp [askTrace, hE]
    simp only [Option.bind, h2]
    rw [repairLoop_all_fail parse content repairs (some c)]
    intro c' hc'
    apply hfail
    simp [askTrace, hE]
    exact Or.inr (Or.inr hc')

/-- The purchase reply refuting C5: one raw insight with confidence 5,
no recommendations. -/
def c5BadPurchaseReply : Json :=
  .obj [("insights", .arr [.obj [("audience_segment", .str "A"), ("confidence", .num 5)]]),
        ("recommendations", .arr [])]

/-- **C5** (counterexample).  The claim that every specialist agent
clamps all confidences to `[0, 1]` is false on the code:
`PurchaseAgent.analyze_purchases` passes the reply's insight list
through untouched, so an insight with confidence 5 survives into the
output (and the fallback recommendation copies it unclamped). -/
theorem c5_confidence_clamping_counterexample :
    (analyzePurchases c5BadPurchaseReply).map allConfsInUnit = .ok false
      ∧ (analyzePurchases c5BadPurchaseReply).map (fun out => out.getD "insights" .null)
          = .ok (.arr [.obj [("audience_segment", .str "A"), ("confidence", .num 5)]]) :=
  ⟨rfl, rfl⟩

/-- **C5** (amended).  For the Sentiment and Campaign agents, every
insight and recommendation in the normalized output carries a numeric
confidence in `[0, 1]` (with 0.0 on non-numeric input, via the guarded
`float`-and-clamp); the Purchase agent instead passes model-provided
confidences through unmodified. -/
theorem c5_confidence_clamped_amended (resp : Json) :
    allConfsInUnit (analyzeSentiment resp) = true
      ∧ allConfsInUnit (analyzeCampaigns resp) = true := by
  constructor
  · unfold analyzeSentiment
    dsimp only
    by_cases h : resp.isObj
    · rw [if_pos h]
      dsimp only
      by_cases hr : (parsedRecs resp).isEmpty
      · rw [if_pos hr]
        refine allConfsInUnit_mk _ _ _ _ (parsedInsights_all_conf resp) ?_
        rw [List.all_eq_true]
        intro x hx
        obtain ⟨it, hit, rfl⟩ := List.mem_map.1 hx
        obtain ⟨q, hq, h0, h1⟩ := insight_conf_fact resp
          (Or.inl (List.mem_of_mem_take hit))
        exact confInUnitB_sentFallbackRec it q hq h0 h1
      · rw [if_neg hr]
        exact allConfsInUnit_mk _ _ _ _ (parsedInsights_all_conf resp)
          (parsedRecs_all_conf resp)
    · rw [if_neg h]
      dsimp only
      rw [if_neg (by simp)]
      refine allConfsInUnit_mk _ _ _ _ ?_ ?_
      · simp [confInUnitB_rawTextInsight]
      · simp [confInUnitB_ideaObj _ 0 (le_refl 0) (by norm_num)]
  · unfold analyzeCampaigns
    dsimp only
    by_cases h : resp.isObj
    · rw [if_pos h]
      dsimp only
      by_cases hr : (parsedRecs resp).isEmpty && !(parsedInsights resp).isEmpty
      · rw [if_pos hr]
        refine allConfsInUnit_mk _ _ _ _ (parsedInsights_all_conf resp) ?_
        rw [List.all_eq_true]
        intro x hx
        obtain ⟨it, hit, rfl⟩ := List.mem_map.1 hx
        obtain ⟨q, hq, h0, h1⟩ := insight_conf_fact resp
          (Or.inl (List.mem_of_mem_take hit))
        exact confInUnitB_campFallbackRec it q hq h0 h1
      · rw [if_neg hr]
        exact allConfsInUnit_mk _ _ _ _ (parsedInsights_all_conf resp)
          (parsedRecs_all_conf resp)
    · rw [if_neg h]
      dsimp only
      rw [if_pos (by simp)]
      refine allConfsInUnit_mk _ _ _ _ ?_ ?_
      · simp [confInUnitB_rawTextInsight]
      · rw [List.all_eq_true]
        intro x hx
        obtain ⟨it, hit, rfl⟩ := List.mem_map.1 hx
        have hfact : ∃ s, it = rawTextInsight s := by
          simp only [List.take, List.mem_singleton] at hit
          exact ⟨_, hit⟩
        obtain ⟨q, hq, h0, h1⟩ := insight_conf_fact resp (Or.inr hfact)
        exact confInUnitB_campFallbackRec it q hq h0 h1

/-- **C6** (counterexample).  The claim that every specialist agent
wraps a non-mapping reply into exactly one low-confidence insight is
false on the code: `PurchaseAgent.analyze_purchases` on the non-dict
reply `"plain text reply"` returns zero insights (and its summary is
the raw text, untruncated), not one. -/
theorem c6_purchase_nondict_counterexample :
    (analyzePurchases (Json.str "plain text reply")).map insightCount ≠ .ok 1
      ∧ (analyzePurchases (Json.str "plain text reply")).map insightCount = .ok 0 := by
  constructor
  · have h : (analyzePurchases (Json.str "plain text reply")).map insightCount
        = .ok 0 := rfl
    rw [h]
    simp
  · rfl

/-- **C6** (amended).  On a non-mapping completion reply, the Sentiment
and Campaign agents return exactly one low-confidence insight — its
signal the first line of the raw text (capped at 300 characters,
unchanged by the prior 1000-character summary truncation) and its
confidence 0 — with the raw text truncated to 1000 characters as
summary (Campaign substitutes `"No summary available"` when the text
is empty); the Purchase agent instead returns zero insights and the
untruncated raw text as summary. -/
theorem c6_nondict_reply_amended (resp : Json) (h : resp.isObj = false) :
    ((analyzeSentiment resp).getD "summary" .null = .str (strTake (pyStr resp) 1000)
      ∧ (analyzeSentiment resp).getD "insights" .null
          = .arr [rawTextInsight (strTake (pyStr resp) 1000)]
      ∧ (rawTextInsight (strTake (pyStr resp) 1000)).get? "signal"
          = some (.str (strTake (firstLine (pyStr resp)) 300))
      ∧ (rawTextInsight (strTake (pyStr resp) 1000)).get? "confidence"
          = some (.num 0))
    ∧ ((analyzeCampaigns resp).getD "summary" .null
          = .str (strOr (strTake (pyStr resp) 1000) "No summary available")
      ∧ (analyzeCampaigns resp).getD "insights" .null
          = .arr [rawTextInsight (strTake (pyStr resp) 1000)])
    ∧ ((analyzePurchases resp).map (fun o => o.getD "insights" .null) = .ok (.arr [])
      ∧ (analyzePurchases resp).map (fun o => o.getD "summary" .null)
          = .ok (.str (pyStr resp))) := by
  refine ⟨⟨?_, ?_, ?_, rfl⟩, ⟨?_, ?_⟩, ⟨?_, ?_⟩⟩
  · rw [analyzeSentiment_nondict resp h]
    rfl
  · rw [analyzeSentiment_nondict resp h]
    rfl
  · have hsig : (rawTextInsight (strTake (pyStr resp) 1000)).get? "signal"
        = some (.str (strTake (firstLine (strTake (pyStr resp) 1000)) 300)) := rfl
    rw [hsig, firstLine_of_truncation]
  · rw [analyzeCampaigns_nondict resp h]
    rfl
  · rw [analyzeCampaigns_nondict resp h]
    rfl
  · rw [analyzePurchases_nondict resp h]
    rfl
  · rw [analyzePurchases_nondict resp h]
    rfl

/-- Witness for C6: the amended theorem applied to the concrete
non-dict reply `"first line\nrest"`. -/
theorem c6_nondict_reply_amended_witness :
    (Json.str "first line\nrest").isObj = false
      ∧ (analyzeSentiment (Json.str "first line\nrest")).getD "summary" .null
          = .str (strTake (pyStr (Json.str "first line\nrest")) 1000)
      ∧ (analyzeSentiment (Json.str "first line\nrest")).getD "insights" .null
          = .arr [rawTextInsight (strTake (pyStr (Json.str "first line\nrest")) 1000)] :=
  ⟨rfl, (c6_nondict_reply_amended (Json.str "first line\nrest") rfl).1.1,
    (c6_nondict_reply_amended (Json.str "first line\nrest") rfl).1.2.1⟩

/-- `analyze_purchases` on a dict reply with falsy recommendations and a
non-empty all-dict insights list: the fallback recommendations are
templated from the first two raw insights. -/
theorem analyzePurchases_fallback (respP : Json) (xsP : List Json)
    (h0 : respP.isObj = true)
    (h1 : (respP.getD "recommendations" (.arr [])).pyTruthy = false)
    (h2 : respP.getD "insights" (.arr []) = .arr xsP)
    (h3 : xsP ≠ [])
    (h4 : ∀ x ∈ xsP, x.isObj = true) :
    analyzePurchases respP = .ok (.obj [
      ("summary", respP.getD "summary" (.str "No summary available")),
      ("key_metrics", respP.getD "key_metrics" (.obj [])),
      ("insights", .arr xsP),
      ("recommendations", .arr ((xsP.take 2).map purchRecObj))]) := by
  unfold analyzePurchases
  rw [h0]
  dsimp only
  rw [h2, h1]
  have htr : (Json.arr xsP).pyTruthy = true := by
    unfold Json.pyTruthy
    cases hx : xsP with
    | nil => exact absurd hx h3
    | cons y t => rfl
  rw [htr]
  dsimp only
  rw [mapM_purchDeriveRec_ok _ (fun x hx => h4 x (List.mem_of_mem_take hx))]
  rfl

/-- **C8** (confirmed).  For each specialist agent, when the reply's
parsed recommendations are empty but its insights are not, the agent
derives exactly `min 2 (number of insights)` fallback recommendations
templated from the leading insights, and each derived idea string
mentions (contains) that insight's audience segment and product focus.
For the Purchase agent the insights are the raw reply items (all dicts
here, so the unguarded attribute access cannot raise). -/
theorem c8_fallback_recommendations
    (respS respC respP : Json) (xsP : List Json)
    (hs1 : parsedRecs respS = []) (hs2 : parsedInsights respS ≠ [])
    (hc1 : parsedRecs respC = []) (hc2 : parsedInsights respC ≠ [])
    (hp0 : respP.isObj = true)
    (hp1 : (respP.getD "recommendations" (.arr [])).pyTruthy = false)
    (hp2 : respP.getD "insights" (.arr []) = .arr xsP) (hp3 : xsP ≠ [])
    (hp4 : ∀ x ∈ xsP, x.isObj = true) :
    ((analyzeSentiment respS).getD "recommendations" .null
        = .arr (((parsedInsights respS).take 2).map sentFallbackRec)
      ∧ (((parsedInsights respS).take 2).map sentFallbackRec).length
          = min 2 (parsedInsights respS).length
      ∧ ∀ it ∈ (parsedInsights respS).take 2, ∀ a p,
          it.get? "audience_segment" = some (.str a) →
          it.get? "product_focus" = some (.str p) →
          Mentions (ideaOf (sentFallbackRec it)) a
            ∧ Mentions (ideaOf (sentFallbackRec it)) p)
    ∧ ((analyzeCampaigns respC).getD "recommendations" .null
        = .arr (((parsedInsights respC).take 2).map campFallbackRec)
      ∧ (((parsedInsights respC).take 2).map campFallbackRec).length
          = min 2 (parsedInsights respC).length
      ∧ ∀ it ∈ (parsedInsights respC).take 2, ∀ a p,
          it.get? "audience_segment" = some (.str a) →
          it.get? "product_focus" = some (.str p) →
          Mentions (ideaOf (campFallbackRec it)) a
            ∧ Mentions (ideaOf (campFallbackRec it)) p)
    ∧ ((analyzePurchases respP).map (fun o => o.getD "recommendations" .null)
        = .ok (.arr ((xsP.take 2).map purchRecObj))
      ∧ ((xsP.take 2).map purchRecObj).length = min 2 xsP.length
      ∧ ∀ it ∈ xsP.take 2, ∀ a p,
          it.get? "audience_segment" = some (.str a) →
          it.get? "product_focus" = some (.str p) →
          Mentions (ideaOf (purchRecObj it)) a
            ∧ Mentions (ideaOf (purchRecObj it)) p) := by
  refine ⟨⟨?_, ?_, ?_⟩, ⟨?_, ?_, ?_⟩, ⟨?_, ?_, ?_⟩⟩
  · rw [analyzeSentiment_obj respS (isObj_of_parsedInsights_ne_nil hs2), hs1]
    rfl
  · simp [List.length_take]
  · intro it _ a p ha hp
    exact sentFallbackRec_mentions it a p ha hp
  · have hne : (parsedInsights respC).isEmpty = false := by
      cases h' : parsedInsights respC with
      | nil => exact absurd h' hc2
      | cons x t => rfl
    rw [analyzeCampaigns_obj respC (isObj_of_parsedInsights_ne_nil hc2), hc1, hne]
    rfl
  · simp [List.length_take]
  · intro it _ a p ha hp
    exact campFallbackRec_mentions it a p ha hp
  · rw [analyzePurchases_fallback respP xsP hp0 hp1 hp2 hp3 hp4]
    rfl
  · simp [List.length_take]
  · intro it _ a p ha hp
    exact purchRecObj_mentions it a p ha hp

/-- A first concrete insight item for the C8 witness. -/
def c8Insight1 : Json :=
  .obj [("audience_segment", .str "Young families"), ("product_focus", .str "Ertiga"),
        ("region", .str "South"), ("signal", .str "High EMI adoption"),
        ("confidence", .num (8 / 10))]

/-- A second concrete insight item for the C8 witness. -/
def c8Insight2 : Json :=
  .obj [("audience_segment", .str "Urban professionals"), ("product_focus", .str "Fronx"),
        ("region", .str "West"), ("signal", .str "Positive reviews"),
        ("confidence", .num (6 / 10))]

/-- A reply with two insights and zero recommendations, for the C8
witness. -/
def c8Reply : Json :=
  .obj [("summary", .str "two insights, no recommendations"),
        ("insights", .arr [c8Insight1, c8Insight2]),
        ("recommendations", .arr [])]

/-- Witness for C8: on a reply with 2 insights and 0 recommendations,
each agent derives exactly 2 fallback recommendations. -/
theorem c8_fallback_recommendations_witness :
    parsedRecs c8Reply = []
      ∧ (analyzeSentiment c8Reply).getD "recommendations" .null
          = .arr (((parsedInsights c8Reply).take 2).map sentFallbackRec)
      ∧ (((parsedInsights c8Reply).take 2).map sentFallbackRec).length = 2
      ∧ (analyzePurchases c8Reply).map (fun o => o.getD "recommendations" .null)
          = .ok (.arr (([c8Insight1, c8Insight2].take 2).map purchRecObj)) := by
  have hlen : (parsedInsights c8Reply).length = 2 := rfl
  have hs2 : parsedInsights c8Reply ≠ [] := by
    intro h
    rw [h] at hlen
    simp at hlen
  have hp4 : ∀ x ∈ [c8Insight1, c8Insight2], x.isObj = true := by
    intro x hx
    simp only [List.mem_cons, List.not_mem_nil, or_false] at hx
    rcases hx with rfl | rfl <;> rfl
  have h := c8_fallback_recommendations c8Reply c8Reply c8Reply [c8Insight1, c8Insight2]
    rfl hs2 rfl hs2 rfl rfl rfl (List.cons_ne_nil _ _) hp4
  refine ⟨rfl, h.1.1, ?_, h.2.2.1⟩
  rw [h.1.2.1, hlen]
  rfl

/-- Witness for C2: a concrete malformed reply (the spec's own
truncated-JSON example), one failed repair attempt, and a parser that
fails on every string. -/
theorem c2_invalid_json_typed_failure_witness :
    (∀ c ∈ askTrace "Sure! \x7b\"summary\": \"ok\", \"insights\": [\x7d"
        [Except.ok "still not json"],
      (fun (_ : String) => (none : Option Json)) c = none)
    ∧ askOllama (.ok "Sure! \x7b\"summary\": \"ok\", \"insights\": [\x7d")
        (fun _ => none) true [.ok "still not json"]
      = .ok (invalidJsonFailure "Sure! \x7b\"summary\": \"ok\", \"insights\": [\x7d") := by
  have h : ∀ c ∈ askTrace "Sure! \x7b\"summary\": \"ok\", \"insights\": [\x7d"
      [Except.ok "still not json"],
      (fun (_ : String) => (none : Option Json)) c = none := by
    intro c _
    rfl
  exact ⟨h, c2_invalid_json_typed_failure _ _ _ h⟩

/-- Extract the decision from a successful `combine_insights` call
(used to name concrete decisions in witnesses). -/
def exceptOkD (e : Except String Json) : Json :=
  match e with
  | .ok j => j
  | .error _ => .null

/-- **C1** (confirmed).  For every triple of specialist outputs —
including empty/falsy ones — and every completion reply, whenever
`combine_insights` returns a Final Decision it is fully populated:
`executive_summary`, `key_findings`, `final_campaign` and
`source_agents` are present, `key_findings` has exactly the keys
`sentiment`/`purchase`/`campaign` each holding a list of strings (the
missing-agent sentinel included), and `final_campaign.channels` and
`final_campaign.kpis` are non-empty lists of strings. -/
theorem c1_final_decision_fully_populated (reparse : String → Option Json)
    (campaignOut purchaseOut sentimentOut resp d : Json)
    (h : combineInsights reparse campaignOut purchaseOut sentimentOut resp = .ok d) :
    fullyPopulatedB d = true := by
  unfold combineInsights at h
  dsimp only at h
  rcases hres : resolveResult reparse resp (extractSummary campaignOut)
      (extractSummary purchaseOut) (extractSummary sentimentOut)
      (sourcesOf campaignOut purchaseOut sentimentOut) with e | result
  · rw [hres] at h
    simp [Bind.bind, Except.bind] at h
  · rw [hres] at h
    simp only [Bind.bind, Except.bind] at h
    exact finalizeDecision_fullyPopulated result _ _ _ _ _ _ _ d h

/-- Witness for C1: all three specialist outputs and the reply are empty
dicts; the returned decision is fully populated. -/
theorem c1_final_decision_fully_populated_witness :
    combineInsights (fun _ => none) (Json.obj []) (Json.obj []) (Json.obj []) (Json.obj [])
        = .ok (exceptOkD (combineInsights (fun _ => none) (Json.obj []) (Json.obj [])
            (Json.obj []) (Json.obj [])))
      ∧ fullyPopulatedB (exceptOkD (combineInsights (fun _ => none) (Json.obj [])
          (Json.obj []) (Json.obj []) (Json.obj []))) = true :=
  ⟨rfl, c1_final_decision_fully_populated (fun _ => none) (Json.obj []) (Json.obj [])
    (Json.obj []) (Json.obj []) _ rfl⟩

/-- **C9** (confirmed).  In `combine_insights`, a falsy specialist
output (such as the empty dict) is treated as "agent not run": it is
excluded from the accumulated source list (installed as
`source_agents` when the reply supplies none), and its `key_findings`
entry is the sentinel `"No data available (agent not run)"`; a truthy
output whose reply findings are falsy gets the distinct sentinel
`"No key findings produced by agent"`. -/
theorem c9_falsy_output_not_run (reparse : String → Option Json)
    (campaignOut purchaseOut sentimentOut resp d : Json)
    (hcamp : campaignOut.pyTruthy = false)
    (hpurch : purchaseOut.pyTruthy = true)
    (hresp : resp.isObj = true)
    (hsa : resp.get? "source_agents" = none)
    (hkfc : (kfLookup (resp.getD "key_findings" (.obj [])) "campaign").pyTruthy = false)
    (hkfp : (kfLookup (resp.getD "key_findings" (.obj [])) "purchase").pyTruthy = false)
    (h : combineInsights reparse campaignOut purchaseOut sentimentOut resp = .ok d) :
    d.get? "source_agents"
        = some (.arr ((sourcesOf campaignOut purchaseOut sentimentOut).map Json.str))
      ∧ (sourcesOf campaignOut purchaseOut sentimentOut).contains "Campaign" = false
      ∧ (sourcesOf campaignOut purchaseOut sentimentOut).contains "Purchase" = true
      ∧ (d.getD "key_findings" .null).get? "campaign"
          = some (.arr [Json.str "No data available (agent not run)"])
      ∧ (d.getD "key_findings" .null).get? "purchase"
          = some (.arr [Json.str "No key findings produced by agent"]) := by
  have hcontC : (sourcesOf campaignOut purchaseOut sentimentOut).contains "Campaign"
      = false := by
    unfold sourcesOf
    rw [hcamp, hpurch]
    cases hs : sentimentOut.pyTruthy <;> simp
  have hcontP : (sourcesOf campaignOut purchaseOut sentimentOut).contains "Purchase"
      = true := by
    unfold sourcesOf
    rw [hcamp, hpurch]
    cases hs : sentimentOut.pyTruthy <;> simp
  unfold combineInsights at h
  dsimp only at h
  rw [resolveResult_obj reparse resp hresp] at h
  simp only [Bind.bind, Except.bind] at h
  obtain ⟨hkf, hsrc⟩ := finalizeDecision_fields resp hresp
    (sourcesOf campaignOut purchaseOut sentimentOut) _ _ _ _ _ _ d h
  refine ⟨hsrc hsa, hcontC, hcontP, ?_, ?_⟩
  · rw [hkf]
    show some (Json.arr ((kfEntry (resp.getD "key_findings" (.obj []))
      (sourcesOf campaignOut purchaseOut sentimentOut) "campaign").map Json.str)) = _
    rw [kfEntry_not_run _ _ _ hkfc
      (by rw [show pyCapitalize "campaign" = "Campaign" from rfl]; exact hcontC)]
    rfl
  · rw [hkf]
    show some (Json.arr ((kfEntry (resp.getD "key_findings" (.obj []))
      (sourcesOf campaignOut purchaseOut sentimentOut) "purchase").map Json.str)) = _
    rw [kfEntry_ran_empty _ _ _ hkfp
      (by rw [show pyCapitalize "purchase" = "Purchase" from rfl]; exact hcontP)]
    rfl

/-- Every sentiment output is a dict. -/
theorem analyzeSentiment_isObj (resp : Json) : (analyzeSentiment resp).isObj = true := by
  unfold analyzeSentiment
  dsimp only
  split <;> rfl

/-- Every sentiment output carries a string summary. -/
theorem analyzeSentiment_summary_str (resp : Json) :
    ∃ s, (analyzeSentiment resp).get? "summary" = some (.str s) := by
  unfold analyzeSentiment
  dsimp only
  split
  · exact ⟨_, rfl⟩
  · exact ⟨_, rfl⟩

/-- Dict assignment yields a truthy (non-empty) dict. -/
theorem objSet_truthy {j : Json} (hj : j.isObj = true) (k : String) (v : Json) :
    (j.objSet k v).pyTruthy = true := by
  cases j with
  | obj kvs =>
    cases kvs with
    | nil => rfl
    | cons kv rest =>
      obtain ⟨k', v'⟩ := kv
      unfold Json.objSet Json.setKVs
      by_cases hk : k' == k <;> simp [hk, Json.pyTruthy]
  | null => exact absurd hj (by simp [Json.isObj])
  | bool b => exact absurd hj (by simp [Json.isObj])
  | num q => exact absurd hj (by simp [Json.isObj])
  | str s => exact absurd hj (by simp [Json.isObj])
  | arr xs => exact absurd hj (by simp [Json.isObj])

/-- Joining values that are all strings cannot raise. -/
theorem pyJoin_strs (sep : String) (xs : List Json)
    (h : ∀ x ∈ xs, ∃ s, x = Json.str s) : ∃ j, pyJoin sep xs = .ok j := by
  unfold pyJoin
  suffices hm : ∃ l, xs.mapM (fun j => match j with
      | Json.str s => Except.ok s
      | _ => Except.error "TypeError: join argument is not a str")
        = Except.ok (ε := String) l by
    obtain ⟨l, hl⟩ := hm
    rw [hl]
    exact ⟨_, rfl⟩
  induction xs with
  | nil => exact ⟨[], rfl⟩
  | cons x t ih =>
    obtain ⟨s, rfl⟩ := h x (List.mem_cons_self x t)
    obtain ⟨l, hl⟩ := ih (fun y hy => h y (List.mem_cons_of_mem _ hy))
    rw [List.mapM_cons, hl]
    exact ⟨s :: l, rfl⟩

/-- When the model reply has no executive summary and the three
specialist summaries are strings, the executive-summary repair cannot
raise. -/
theorem computeExecSummary_ok (result : Json)
    (hnone : result.get? "executive_summary" = none)
    (s1 s2 s3 : String) :
    ∃ es, computeExecSummary result (.str s1) (.str s2) (.str s3) = .ok es := by
  unfold computeExecSummary
  have h0 : pyOr (result.getD "executive_summary" .null) (.str "") = .str "" := by
    simp [Json.getD, hnone, pyOr, Json.pyTruthy]
  rw [h0]
  rw [if_neg (by decide : ¬((Json.str "").pyTruthy = true))]
  by_cases hp : ([Json.str s1, Json.str s2, Json.str s3].filter Json.pyTruthy).isEmpty
  · rw [if_pos hp]
    exact ⟨_, rfl⟩
  · rw [if_neg hp]
    obtain ⟨j, hj⟩ := pyJoin_strs " " ([Json.str s1, Json.str s2, Json.str s3].filter
      Json.pyTruthy) (by
        intro x hx
        have hx' := List.mem_of_mem_filter hx
        simp only [List.mem_cons, List.not_mem_nil, or_false] at hx'
        rcases hx' with rfl | rfl | rfl
        · exact ⟨s1, rfl⟩
        · exact ⟨s2, rfl⟩
        · exact ⟨s3, rfl⟩)
    rw [hj]
    exact ⟨_, rfl⟩

/-- `finalizeDecision` succeeds whenever the executive-summary repair
does. -/
theorem finalizeDecision_ok (result : Json) (hobj : result.isObj = true)
    (sources : List String)
    (sentSummary purchSummary campSummary campaignRef purchaseRef sentimentRef : Json)
    (es : String)
    (hes : computeExecSummary
      (result.objSet "key_findings"
        (normalizeKeyFindings (result.getD "key_findings" (.obj [])) sources))
      sentSummary purchSummary campSummary = .ok es) :
    ∃ d, finalizeDecision result sources sentSummary purchSummary campSummary
      campaignRef purchaseRef sentimentRef = .ok d := by
  unfold finalizeDecision
  rw [if_neg (by simp [hobj] : ¬((!result.isObj) = true))]
  dsimp only
  rw [hes]
  exact ⟨_, rfl⟩

/-- Witness for C9: campaign output empty (falsy), purchase output a
truthy dict, reply a dict with no `source_agents`/`key_findings`. -/
theorem c9_falsy_output_not_run_witness :
    (Json.obj []).pyTruthy = false
      ∧ (Json.obj [("summary", Json.str "purchases up")]).pyTruthy = true
      ∧ (exceptOkD (combineInsights (fun _ => none) (Json.obj [])
            (Json.obj [("summary", Json.str "purchases up")]) (Json.obj [])
            (Json.obj [("foo", Json.str "bar")]))).get? "source_agents"
          = some (.arr ((sourcesOf (Json.obj [])
              (Json.obj [("summary", Json.str "purchases up")]) (Json.obj [])).map Json.str))
      ∧ ((exceptOkD (combineInsights (fun _ => none) (Json.obj [])
            (Json.obj [("summary", Json.str "purchases up")]) (Json.obj [])
            (Json.obj [("foo", Json.str "bar")]))).getD "key_findings" .null).get? "campaign"
          = some (.arr [Json.str "No data available (agent not run)"])
      ∧ ((exceptOkD (combineInsights (fun _ => none) (Json.obj [])
            (Json.obj [("summary", Json.str "purchases up")]) (Json.obj [])
            (Json.obj [("foo", Json.str "bar")]))).getD "key_findings" .null).get? "purchase"
          = some (.arr [Json.str "No key findings produced by agent"]) := by
  have h := c9_falsy_output_not_run (fun _ => none) (Json.obj [])
    (Json.obj [("summary", Json.str "purchases up")]) (Json.obj [])
    (Json.obj [("foo", Json.str "bar")])
    (exceptOkD (combineInsights (fun _ => none) (Json.obj [])
      (Json.obj [("summary", Json.str "purchases up")]) (Json.obj [])
      (Json.obj [("foo", Json.str "bar")])))
    rfl rfl rfl rfl rfl rfl rfl
  exact ⟨rfl, rfl, h.1, h.2.2.2.1, h.2.2.2.2⟩

/-- The C7 end-to-end prompt (spec section 8). -/
def c7Prompt : String :=
  "Why is sentiment negative for compact SUVs and what purchase patterns support this?"

/-- A concrete completion oracle for the C7 counterexample run. -/
def c7Oracle : LlmOracle :=
  { sentResp := .str "negative buzz around compact SUVs",
    purchResp := .str "raw purchase data text",
    campResp := .str "unused",
    marketerResp := .obj [("foo", .str "bar")],
    reparse := fun _ => none }

/-- **C7** (counterexample).  The claim that the run for the C7 prompt
ends with `agent_outputs` of length exactly 2 is false on the code:
`marketer_node` appends its own trace entry, so the returned state has
three outputs, tagged sentiment, purchase, marketer; and the computed
`source_agents` list is `["Purchase", "Sentiment"]` (the code's
campaign→purchase→sentiment check order), not
`["Sentiment", "Purchase"]`. -/
theorem c7_end_to_end_counterexample :
    (runFlow c7Oracle c7Prompt).map (fun st => st.agent_outputs.length) ≠ .ok 2
      ∧ (runFlow c7Oracle c7Prompt).map (fun st => st.agent_outputs.length) = .ok 3
      ∧ (runFlow c7Oracle c7Prompt).map
          (fun st => st.agent_outputs.map (fun a => a.getD "agent" .null))
        = .ok [.str "sentiment", .str "purchase", .str "marketer"]
      ∧ (runFlow c7Oracle c7Prompt).map
          (fun st => (st.final_decision.getD .null).get? "source_agents")
        = .ok (some (.arr [.str "Purchase", .str "Sentiment"])) := by
  refine ⟨?_, rfl, rfl, rfl⟩
  have h : (runFlow c7Oracle c7Prompt).map (fun st => st.agent_outputs.length)
      = .ok 3 := rfl
  rw [h]
  simp

/-- The sentiment trace entry of a C7 run. -/
def sentEntryOf (o : LlmOracle) : Json :=
  (analyzeSentiment o.sentResp).objSet "agent" (.str "sentiment")

/-- The purchase output of a C7 run on a non-dict purchase reply. -/
def povalOf (o : LlmOracle) : Json :=
  .obj [("summary", .str (pyStr o.purchResp)), ("key_metrics", .obj []),
        ("insights", .arr []), ("recommendations", .arr [])]

/-- The purchase trace entry of a C7 run on a non-dict purchase reply. -/
def purchEntryOf (o : LlmOracle) : Json :=
  (povalOf o).objSet "agent" (.str "purchase")

/-- The initial workflow state of a C7 run (the router has set the
route). -/
def c7St0 : WorkflowState :=
  { user_prompt := c7Prompt, route := ["Sentiment", "Purchase", "Marketer"],
    agent_outputs := [], messages := [], final_decision := none }

/-- The state after the sentiment node of a C7 run. -/
def c7St1 (o : LlmOracle) : WorkflowState :=
  specialistNode "sentiment" (analyzeSentiment o.sentResp) c7St0

/-- The state after the purchase node of a C7 run (non-dict purchase
reply). -/
def c7St2 (o : LlmOracle) : WorkflowState :=
  specialistNode "purchase" (povalOf o) (c7St1 o)

/-- The final state of a C7 run whose decision came out as `d`. -/
def c7Final (o : LlmOracle) (d : Json) : WorkflowState :=
  { c7St2 o with
    agent_outputs := (c7St2 o).agent_outputs ++ [Json.obj [
      ("agent", .str "marketer"),
      ("summary", pyOr (d.getD "executive_summary" .null)
        (pyOr (d.getD "summary" .null) (.str "No summary available"))),
      ("key_findings", d.getD "key_findings" (.obj [])),
      ("final_campaign", d.getD "final_campaign" (.obj [])),
      ("strategic_recommendations",
        d.getD "strategic_recommendations" (d.getD "recommendations" (.arr []))),
      ("raw_decision", d)]],
    messages := (c7St2 o).messages
      ++ [Json.obj [("role", .str "assistant"), ("content", d)]],
    final_decision := some d }

/-- **C7** (amended).  For the prompt `"Why is sentiment negative for
compact SUVs and what purchase patterns support this?"` the router
yields `["Sentiment", "Purchase", "Marketer"]`, and the workflow run
(purchase reply non-dict; marketer reply a dict supplying no
`source_agents`, `key_findings` or `executive_summary` of its own)
returns a state whose `agent_outputs` has length exactly 3 — tagged
sentiment, purchase, then the marketer trace entry the claim did not
account for — with `final_decision.source_agents =
["Purchase", "Sentiment"]` (the code's campaign→purchase→sentiment
check order) and Campaign marked not-run in `key_findings`. -/
theorem c7_end_to_end_amended (o : LlmOracle)
    (hpn : o.purchResp.isObj = false)
    (hm1 : o.marketerResp.isObj = true)
    (hm2 : o.marketerResp.get? "source_agents" = none)
    (hm3 : o.marketerResp.get? "key_findings" = none)
    (hm4 : o.marketerResp.get? "executive_summary" = none) :
    routerRoute c7Prompt = ["Sentiment", "Purchase", "Marketer"]
      ∧ ∃ st d, runFlow o c7Prompt = .ok st
        ∧ st.agent_outputs.map (fun a => a.getD "agent" .null)
            = [.str "sentiment", .str "purchase", .str "marketer"]
        ∧ st.agent_outputs.length = 3
        ∧ st.final_decision = some d
        ∧ d.get? "source_agents" = some (.arr [.str "Purchase", .str "Sentiment"])
        ∧ (d.getD "key_findings" .null).get? "campaign"
            = some (.arr [.str "No data available (agent not run)"]) := by
  refine ⟨rfl, ?_⟩
  have htagS : (sentEntryOf o).get? "agent" = some (.str "sentiment") :=
    objSet_get?_same (analyzeSentiment_isObj o.sentResp) _ _
  have htagP : (purchEntryOf o).get? "agent" = some (.str "purchase") := rfl
  have hfS : findAgentOut (c7St2 o).agent_outputs "sentiment" = sentEntryOf o := by
    show findAgentOut [sentEntryOf o, purchEntryOf o] "sentiment" = sentEntryOf o
    unfold findAgentOut
    simp [List.find?, htagS, htagP]
  have hfP : findAgentOut (c7St2 o).agent_outputs "purchase" = purchEntryOf o := by
    show findAgentOut [sentEntryOf o, purchEntryOf o] "purchase" = purchEntryOf o
    unfold findAgentOut
    simp [List.find?, htagS, htagP]
  have hfC : findAgentOut (c7St2 o).agent_outputs "campaign" = .obj [] := by
    show findAgentOut [sentEntryOf o, purchEntryOf o] "campaign" = .obj []
    unfold findAgentOut
    simp [List.find?, htagS, htagP]
  have hsrcs : sourcesOf (Json.obj []) (purchEntryOf o) (sentEntryOf o)
      = ["Purchase", "Sentiment"] := by
    unfold sourcesOf sentEntryOf
    rw [show (Json.obj []).pyTruthy = false from rfl,
        show (purchEntryOf o).pyTruthy = true from rfl,
        objSet_truthy (analyzeSentiment_isObj o.sentResp) "agent" (.str "sentiment")]
    rfl
  obtain ⟨ssum, hs⟩ := analyzeSentiment_summary_str o.sentResp
  have hsentS : extractSummary (sentEntryOf o) = .str ssum := by
    unfold extractSummary sentEntryOf
    rw [if_pos (objSet_isObj (analyzeSentiment_isObj o.sentResp) _ _)]
    unfold Json.getD
    rw [objSet_get?_ne _ _ _ _ (rfl : ("summary" == "agent") = false), hs]
    rfl
  have hr1es : (o.marketerResp.objSet "key_findings"
      (normalizeKeyFindings (o.marketerResp.getD "key_findings" (.obj []))
        (sourcesOf (Json.obj []) (purchEntryOf o) (sentEntryOf o)))).get?
      "executive_summary" = none := by
    rw [objSet_get?_ne _ _ _ _ (rfl : ("executive_summary" == "key_findings") = false)]
    exact hm4
  obtain ⟨es, hes⟩ := computeExecSummary_ok _ hr1es ssum (pyStr o.purchResp) ""
  have hes' : computeExecSummary
      (o.marketerResp.objSet "key_findings"
        (normalizeKeyFindings (o.marketerResp.getD "key_findings" (.obj []))
          (sourcesOf (Json.obj []) (purchEntryOf o) (sentEntryOf o))))
      (extractSummary (sentEntryOf o)) (extractSummary (purchEntryOf o))
      (extractSummary (Json.obj [])) = .ok es := by
    rw [hsentS, show extractSummary (purchEntryOf o) = .str (pyStr o.purchResp) from rfl,
        show extractSummary (Json.obj []) = .str "" from rfl]
    exact hes
  obtain ⟨d, hd⟩ := finalizeDecision_ok o.marketerResp hm1
    (sourcesOf (Json.obj []) (purchEntryOf o) (sentEntryOf o))
    (extractSummary (sentEntryOf o)) (extractSummary (purchEntryOf o))
    (extractSummary (Json.obj []))
    (pyOr (Json.obj []) (.obj [])) (pyOr (purchEntryOf o) (.obj []))
    (pyOr (sentEntryOf o) (.obj [])) es hes'
  have hcomb : combineInsights o.reparse (Json.obj []) (purchEntryOf o) (sentEntryOf o)
      o.marketerResp = .ok d := by
    unfold combineInsights
    dsimp only
    rw [resolveResult_obj _ _ hm1]
    simp only [Bind.bind, Except.bind]
    exact hd
  obtain ⟨hkf, hsrc⟩ := finalizeDecision_fields o.marketerResp hm1
    (sourcesOf (Json.obj []) (purchEntryOf o) (sentEntryOf o))
    _ _ _ _ _ _ d hd
  have hsrcfact : d.get? "source_agents"
      = some (.arr [.str "Purchase", .str "Sentiment"]) := by
    rw [hsrc hm2, hsrcs]
    rfl
  have hkffact : (d.getD "key_findings" .null).get? "campaign"
      = some (.arr [.str "No data available (agent not run)"]) := by
    rw [hkf]
    have hmk : o.marketerResp.getD "key_findings" (.obj []) = .obj [] := by
      simp [Json.getD, hm3]
    show some (Json.arr ((kfEntry (o.marketerResp.getD "key_findings" (.obj []))
      (sourcesOf (Json.obj []) (purchEntryOf o) (sentEntryOf o)) "campaign").map Json.str))
      = _
    rw [kfEntry_not_run _ _ _ (by rw [hmk]; rfl) (by rw [hsrcs]; rfl)]
    rfl
  have e1 : runFlow o c7Prompt = execFrom o 4 "Purchase" (c7St1 o) := rfl
  have hpo : purchaseNode o (c7St1 o) = .ok (c7St2 o) := by
    unfold purchaseNode
    rw [analyzePurchases_nondict o.purchResp hpn]
    rfl
  have e2 : execFrom o 4 "Purchase" (c7St1 o) = marketerNode o (c7St2 o) := by
    have estep : execFrom o 4 "Purchase" (c7St1 o)
        = (do let st' ← purchaseNode o (c7St1 o)
              execFrom o 3 (nextAfter ["Sentiment", "Purchase"] st'.route) st') := rfl
    rw [estep, hpo]
    rfl
  have hmark : marketerNode o (c7St2 o) = .ok (c7Final o d) := by
    unfold marketerNode c7Final
    dsimp only
    rw [hfS, hfP, hfC, hcomb]
    rfl
  refine ⟨c7Final o d, d, by rw [e1, e2, hmark], ?_, rfl, rfl, hsrcfact, hkffact⟩
  show List.map _ [sentEntryOf o, purchEntryOf o, _] = _
  simp only [List.map, Json.getD, htagS, htagP]
  rfl

/-- Witness for C7: the amended theorem applied to the concrete
`c7Oracle`. -/
theorem c7_end_to_end_amended_witness :
    c7Oracle.purchResp.isObj = false
      ∧ c7Oracle.marketerResp.isObj = true
      ∧ c7Oracle.marketerResp.get? "source_agents" = none
      ∧ c7Oracle.marketerResp.get? "key_findings" = none
      ∧ c7Oracle.marketerResp.get? "executive_summary" = none
      ∧ (∃ st d, runFlow c7Oracle c7Prompt = .ok st
          ∧ st.agent_outputs.map (fun a => a.getD "agent" .null)
              = [.str "sentiment", .str "purchase", .str "marketer"]
          ∧ st.agent_outputs.length = 3
          ∧ st.final_decision = some d
          ∧ d.get? "source_agents" = some (.arr [.str "Purchase", .str "Sentiment"])
          ∧ (d.getD "key_findings" .null).get? "campaign"
              = some (.arr [.str "No data available (agent not run)"])) :=
  ⟨rfl, rfl, rfl, rfl, rfl,
    (c7_end_to_end_amended c7Oracle rfl rfl rfl rfl rfl).2⟩

end NextGenMarketer
